import Mathlib

/-!
Shallow embedding of the BreatheHR-to-Flip absence synchronization engine.

The embedding follows the TypeScript source of the repository:
the full-sync handler, the mappers mapBreatheAbsenceToFlipSync and
mapLeaveRequestToFlipSync, extractRejectionReason (src/api/sync/absences.ts),
and the approval-check handler with resolveApprover.

JavaScript platform Map objects are modelled as association lists where
an insertion prepends a binding and lookup takes the most recent binding;
the source never iterates over these maps, so this is extensionally the
platform Map. JavaScript string truthiness (the empty string is falsy) and
the template-literal rendering of a missing value as the text undefined
are modelled explicitly.
-/

/-- Lookup in an association list modelling a JS Map: most recent binding wins. -/
def mapGet (m : List (String × α)) (k : String) : Option α :=
  (m.find? (fun p => p.1 == k)).map (fun p => p.2)

/-- Insertion into an association list modelling a JS Map (Map.prototype.set). -/
def mapSet (m : List (String × α)) (k : String) (v : α) : List (String × α) :=
  (k, v) :: m

/-- Membership test modelling Map.prototype.has. -/
def mapHas (m : List (String × α)) (k : String) : Bool :=
  (mapGet m k).isSome

/-- JS truthiness of an optional string: undefined and the empty string are falsy. -/
def truthy : Option String → Bool
  | none => false
  | some s => s != ""

/-- JS template-literal rendering of an optional string: undefined renders as the word undefined. -/
def jsStr : Option String → String
  | none => "undefined"
  | some s => s

/-- JS a or-else b on optional strings: the short-circuit OR operator. -/
def jsOr (a b : Option String) : Option String :=
  if truthy a then a else b

/-- JS expression x OR null: a falsy string collapses to null. -/
def jsOrNull (x : Option String) : Option String :=
  if truthy x then x else none

/-- A JS value that may be the boolean true or the string true (the cancelled field). -/
inductive JsBoolish where
  | bool (b : Bool)
  | str (s : String)
deriving DecidableEq, Repr

/-- BreatheHR absence record, fields as consumed by the source. -/
structure BreatheAbsence where
  id : Nat
  start_date : Option String := none
  end_date : Option String := none
  cancelled : Option JsBoolish := none
  leave_reason : Option String := none
  leave_reason_id : Option String := none
  other_leave_reason_id : Option String := none
  half_start : Bool := false
  half_end : Bool := false
  deducted : Option String := none
  notes : Option String := none
  updated_at : Option String := none
deriving DecidableEq, Repr

/-- BreatheHR leave request record, fields as consumed by the source, including
the free-text fields probed by extractRejectionReason in their priority order. -/
structure BreatheLeaveRequest where
  id : Nat
  start_date : Option String := none
  end_date : Option String := none
  status : Option String := none
  action : Option String := none
  notes : Option String := none
  half_start : Bool := false
  half_end : Bool := false
  start_half_day : Bool := false
  end_half_day : Bool := false
  updated_at : Option String := none
  rejection_reason : Option String := none
  declined_reason : Option String := none
  reject_reason : Option String := none
  denial_reason : Option String := none
  reviewer_notes : Option String := none
  reviewer_comment : Option String := none
  manager_comment : Option String := none
  manager_notes : Option String := none
  approver_comment : Option String := none
  reason : Option String := none
  comment : Option String := none
deriving DecidableEq, Repr

/-- Downstream status vocabulary of a Flip absence request. -/
inductive AbsenceRequestStatus where
  | PENDING
  | APPROVED
  | REJECTED
  | CANCELLED
deriving DecidableEq, Repr

/-- Date part of a Flip sync item: local datetime text plus half-day marker. -/
structure FlipDateInfo where
  date : Option String
  type : Option String
deriving DecidableEq, Repr

/-- Duration part of a Flip sync item. The numeric parseFloat of the source is
kept as the raw deducted text; no verified claim depends on the parsed number. -/
structure FlipDuration where
  amount_raw : String
  unit : String
deriving DecidableEq, Repr

/-- Policy reference of a Flip sync item. -/
structure FlipPolicyRef where
  external_id : String
deriving DecidableEq, Repr

/-- Flip sync item shape pushed through the bulk-replace sync. -/
structure FlipSyncAbsenceRequest where
  id : Option String := none
  external_id : String
  approver : Option String := none
  absentee : String
  duration : Option FlipDuration := none
  policy : FlipPolicyRef
  requestor_comment : Option String := none
  status : AbsenceRequestStatus
  last_updated : Option String := none
  starts_from : FlipDateInfo
  ends_at : FlipDateInfo
deriving DecidableEq, Repr

/-- Truthiness of the cancelled field: strictly equal to boolean true or to the string true. -/
def absenceIsCancelled (absence : BreatheAbsence) : Bool :=
  match absence.cancelled with
  | some (.bool b) => b
  | some (.str s) => s == "true"
  | none => false

/-- Date key used to correlate a leave request with an absence. -/
def absenceDateKey (absence : BreatheAbsence) : String :=
  jsStr absence.start_date ++ "|" ++ jsStr absence.end_date

/-- Date key of a leave request. -/
def lrDateKey (lr : BreatheLeaveRequest) : String :=
  jsStr lr.start_date ++ "|" ++ jsStr lr.end_date

/-- The date-keyed leave-request map built inside the full-sync handler:
only requests with truthy start date, end date and id are inserted. -/
def buildLeaveRequestMap : List BreatheLeaveRequest →
    List (String × BreatheLeaveRequest) → List (String × BreatheLeaveRequest)
  | [], m => m
  | lr :: rest, m =>
    if truthy lr.start_date && truthy lr.end_date && lr.id != 0 then
      buildLeaveRequestMap rest (mapSet m (lrDateKey lr) lr)
    else
      buildLeaveRequestMap rest m

/-- Characters stripped by JS String.prototype.trim, via Char.isWhitespace. -/
def trimLeftChars : List Char → List Char
  | [] => []
  | c :: rest => if c.isWhitespace then trimLeftChars rest else c :: rest

/-- JS String.prototype.trim modelled executably: strip leading and trailing
whitespace. The platform String.trim of Lean is not used because the claims
are settled by evaluation on concrete strings. -/
def jsTrim (s : String) : String :=
  String.mk ((trimLeftChars ((trimLeftChars s.data).reverse)).reverse)

/-- JS String.prototype.toLowerCase modelled executably over the char list. -/
def jsToLower (s : String) : String :=
  String.mk (s.data.map Char.toLower)

/-- The eleven free-text fields probed by extractRejectionReason, in source order. -/
def rejectionFields (lr : BreatheLeaveRequest) : List (Option String) :=
  [lr.rejection_reason, lr.declined_reason, lr.reject_reason, lr.denial_reason,
   lr.reviewer_notes, lr.reviewer_comment, lr.manager_comment, lr.manager_notes,
   lr.approver_comment, lr.reason, lr.comment]

/-- First truthy value in a list of optional strings: the JS OR chain. -/
def firstTruthy : List (Option String) → Option String
  | [] => none
  | x :: rest => if truthy x then x else firstTruthy rest

/-- extractRejectionReason from the source: the OR chain over the known
free-text fields, then a final trim check on the selected value. -/
def extractRejectionReason (lr : BreatheLeaveRequest) : Option String :=
  let r := jsOr lr.rejection_reason (jsOr lr.declined_reason (jsOr lr.reject_reason
    (jsOr lr.denial_reason (jsOr lr.reviewer_notes (jsOr lr.reviewer_comment
    (jsOr lr.manager_comment (jsOr lr.manager_notes (jsOr lr.approver_comment
    (jsOr lr.reason (jsOr lr.comment none))))))))))
  match r with
  | some s => if jsTrim s != "" then some (jsTrim s) else none
  | none => none

/-- mapBreatheAbsenceToFlipSync from the source: projects a BreatheHR absence
to a Flip sync item, preferring a date-matching leave request id as external_id. -/
def mapBreatheAbsenceToFlipSync (absence : BreatheAbsence) (flipUserId : String)
    (policyByExternalId : List (String × String))
    (leaveRequestMap : List (String × BreatheLeaveRequest)) :
    Option FlipSyncAbsenceRequest :=
  let status : AbsenceRequestStatus :=
    if absenceIsCancelled absence then .CANCELLED else .APPROVED
  let dateKey := absenceDateKey absence
  let matchingLR := mapGet leaveRequestMap dateKey
  let externalId :=
    match matchingLR with
    | some lr => Nat.repr lr.id
    | none => Nat.repr absence.id
  let policyExternalId :=
    if truthy absence.leave_reason then
      let leaveReasonId := jsOr absence.leave_reason_id absence.other_leave_reason_id
      if truthy leaveReasonId && mapHas policyByExternalId (jsStr leaveReasonId) then
        jsStr leaveReasonId
      else "annual_leave"
    else "annual_leave"
  let startsFromType := if absence.half_start then some "SECOND_HALF" else none
  let endsAtType := if absence.half_end then some "FIRST_HALF" else none
  some {
    id := none
    external_id := externalId
    approver := none
    absentee := flipUserId
    duration :=
      if truthy absence.deducted then
        some { amount_raw := jsStr absence.deducted, unit := "DAYS" }
      else none
    policy := { external_id := policyExternalId }
    requestor_comment := jsOrNull absence.notes
    status := status
    last_updated := jsOrNull absence.updated_at
    starts_from := {
      date := if truthy absence.start_date
        then some (jsStr absence.start_date ++ "T00:00:00")
        else absence.start_date
      type := startsFromType }
    ends_at := {
      date := if truthy absence.end_date
        then some (jsStr absence.end_date ++ "T00:00:00")
        else absence.end_date
      type := endsAtType } }

/-- mapLeaveRequestToFlipSync from the source: projects a pending or rejected
leave request; returns none when the start or end date is falsy. -/
def mapLeaveRequestToFlipSync (lr : BreatheLeaveRequest) (flipUserId : String)
    (status : AbsenceRequestStatus) : Option FlipSyncAbsenceRequest :=
  if !truthy lr.start_date || !truthy lr.end_date then none
  else
    let startsFromType := if lr.half_start || lr.start_half_day then some "SECOND_HALF" else none
    let endsAtType := if lr.half_end || lr.end_half_day then some "FIRST_HALF" else none
    let comment0 := jsOrNull lr.notes
    let comment :=
      if status = .REJECTED then
        match extractRejectionReason lr with
        | some r =>
          match comment0 with
          | some c => some (c ++ "\n\n--- Manager\x27s reason: " ++ r)
          | none => some ("Manager\x27s reason: " ++ r)
        | none => comment0
      else comment0
    some {
      id := none
      external_id := Nat.repr lr.id
      approver := none
      absentee := flipUserId
      duration := none
      policy := { external_id := "annual_leave" }
      requestor_comment := comment
      status := status
      last_updated := jsOrNull lr.updated_at
      starts_from := { date := some (jsStr lr.start_date ++ "T00:00:00"), type := startsFromType }
      ends_at := { date := some (jsStr lr.end_date ++ "T00:00:00"), type := endsAtType } }

/-- Attribute of a Flip user profile. -/
structure FlipAttr where
  name : String
  value : String
deriving DecidableEq, Repr

/-- Flip user as consumed by resolveApprover: only the attributes array matters. -/
structure FlipUser where
  attributes : Option (List FlipAttr) := none
deriving DecidableEq, Repr

/-- resolveApprover from the approval-check source: cache lookup, then the
manager attribute of the user profile, then fallback to the absentee themselves.
The users argument models flip.getUser, returning none when the call throws. -/
def resolveApprover (users : String → Option FlipUser) (flipUserId : String)
    (managerCache : List (String × String)) : String × List (String × String) :=
  match mapGet managerCache flipUserId with
  | some v => (v, managerCache)
  | none =>
    let found : Option String :=
      match users flipUserId with
      | none => none
      | some user =>
        match user.attributes with
        | none => none
        | some attrs =>
          match attrs.find? (fun a => a.name == "manger_id" || a.name == "manager_id") with
          | some managerAttr =>
            if managerAttr.value != "" then some managerAttr.value else none
          | none => none
    match found with
    | some v => (v, mapSet managerCache flipUserId v)
    | none => (flipUserId, mapSet managerCache flipUserId flipUserId)

/-- User mapping binding a Flip user to a BreatheHR employee. -/
structure UserMapping where
  flipUserId : String
  breatheEmployeeId : Nat
deriving DecidableEq, Repr

/-- Upstream BreatheHR data for one employee; fetchFails models a thrown
fetch inside the per-employee try block. -/
structure EmployeeData where
  absences : List BreatheAbsence := []
  leaveRequests : List BreatheLeaveRequest := []
  fetchFails : Bool := false
deriving Repr

/-- Upstream state: BreatheHR data per employee id. -/
abbrev Upstream := Nat → EmployeeData

/-- Downstream Flip store, keyed by external_id.
Modelled from the spec: the EngagementSystem holds one absence-request record
per external identifier with a status the decision endpoints can advance. -/
abbrev FlipStore := List (String × AbsenceRequestStatus)

/-- Modelled from the spec: the Flip approve endpoint advances the downstream
record of the given external id to APPROVED. -/
def flipApprove (store : FlipStore) (externalId : String) : FlipStore :=
  mapSet store externalId .APPROVED

/-- Modelled from the spec: the Flip reject endpoint advances the downstream
record of the given external id to REJECTED. -/
def flipReject (store : FlipStore) (externalId : String) : FlipStore :=
  mapSet store externalId .REJECTED

/-- Modelled from the spec: completing a bulk-replace session replaces the
downstream set with exactly the pushed items; for a repeated external id the
last pushed item determines the stored record. -/
def flipReplaceAll (items : List FlipSyncAbsenceRequest) : FlipStore :=
  items.reverse.map (fun it => (it.external_id, it.status))

/-- One call made against the Flip API, recorded in run order. -/
inductive FlipCall where
  | getByExternalId (externalId : String)
  | approve (approverId : String) (externalId : String)
  | reject (approverId : String) (externalId : String)
  | startSync
  | pushBatch (syncId : String) (batch : List FlipSyncAbsenceRequest)
  | completeSync (syncId : String)
  | cancelSync (syncId : String)
  | getUser (userId : String)
deriving DecidableEq, Repr

/-- Accumulator of the item-building phase of the full sync. -/
structure BuildState where
  syncItems : List FlipSyncAbsenceRequest := []
  seenExternalIds : List String := []
deriving Repr

/-- One iteration of section A of the full-sync handler. -/
def absenceStep (flipUserId : String) (policyByExternalId : List (String × String))
    (leaveRequestMap : List (String × BreatheLeaveRequest))
    (absence : BreatheAbsence) (st : BuildState) : BuildState :=
  match mapBreatheAbsenceToFlipSync absence flipUserId policyByExternalId leaveRequestMap with
  | some syncItem =>
    if syncItem.external_id != "" then
      { syncItems := st.syncItems ++ [syncItem],
        seenExternalIds := st.seenExternalIds ++ [syncItem.external_id] }
    else st
  | none => st

/-- Section A of the full-sync handler: push one sync item per absence,
recording its external id as seen. -/
def addAbsenceItems (flipUserId : String) (policyByExternalId : List (String × String))
    (leaveRequestMap : List (String × BreatheLeaveRequest)) :
    List BreatheAbsence → BuildState → BuildState
  | [], st => st
  | absence :: rest, st =>
    addAbsenceItems flipUserId policyByExternalId leaveRequestMap rest
      (absenceStep flipUserId policyByExternalId leaveRequestMap absence st)

/-- Lowercased status of a leave request, with a falsy status read as the empty string. -/
def lrStatusLower (lr : BreatheLeaveRequest) : String :=
  jsToLower (lr.status.getD "")

/-- Lowercased action of a leave request. -/
def lrActionLower (lr : BreatheLeaveRequest) : String :=
  jsToLower (lr.action.getD "")

/-- The three upstream spellings of a rejected decision. -/
def isDecidedRejected (s : String) : Bool :=
  s == "denied" || s == "rejected" || s == "declined"

/-- One iteration of section B of the full-sync handler. -/
def lrStep (flipUserId : String) (lr : BreatheLeaveRequest) (st : BuildState) : BuildState :=
  let status := lrStatusLower lr
  let externalId := Nat.repr lr.id
  if st.seenExternalIds.contains externalId then st
  else if status == "pending" then
    match mapLeaveRequestToFlipSync lr flipUserId .PENDING with
    | some syncItem =>
      { syncItems := st.syncItems ++ [syncItem],
        seenExternalIds := st.seenExternalIds ++ [externalId] }
    | none => st
  else if isDecidedRejected status then
    match mapLeaveRequestToFlipSync lr flipUserId .REJECTED with
    | some syncItem =>
      { syncItems := st.syncItems ++ [syncItem],
        seenExternalIds := st.seenExternalIds ++ [externalId] }
    | none => st
  else st

/-- Section B of the full-sync handler: include PENDING and rejected leave
requests that were not already covered by an absence item. -/
def addLeaveRequestItems (flipUserId : String) :
    List BreatheLeaveRequest → BuildState → BuildState
  | [], st => st
  | lr :: rest, st =>
    addLeaveRequestItems flipUserId rest (lrStep flipUserId lr st)

/-- Item building for one employee: build the date-keyed request map, then
section A over absences, then section B over leave requests. -/
def processEmployee (flipUserId : String) (policyByExternalId : List (String × String))
    (d : EmployeeData) (st : BuildState) : BuildState :=
  let leaveRequestMap := buildLeaveRequestMap d.leaveRequests []
  addLeaveRequestItems flipUserId d.leaveRequests
    (addAbsenceItems flipUserId policyByExternalId leaveRequestMap d.absences st)

/-- The unification pass on one employee record set, starting from an empty state. -/
def unifyEmployee (flipUserId : String) (policyByExternalId : List (String × String))
    (d : EmployeeData) : BuildState :=
  processEmployee flipUserId policyByExternalId d {}

/-- Item building over all mapped employees; a failed fetch skips the employee
and counts an error, as in the per-employee try block. -/
def buildSyncItems (upstream : Upstream) (policyByExternalId : List (String × String)) :
    List UserMapping → BuildState → Nat → BuildState × Nat
  | [], st, errs => (st, errs)
  | m :: rest, st, errs =>
    let d := upstream m.breatheEmployeeId
    if d.fetchFails then
      buildSyncItems upstream policyByExternalId rest st (errs + 1)
    else
      buildSyncItems upstream policyByExternalId rest
        (processEmployee m.flipUserId policyByExternalId d st) errs

/-- State threaded through the notification pass of the full sync. -/
structure NotifState where
  store : FlipStore
  trace : List FlipCall
  notifApproved : Nat
  notifRejected : Nat
deriving Repr

/-- One iteration of the notification pass of the full-sync handler: for an
item about to be pushed as APPROVED or REJECTED whose downstream record is
still PENDING, call the decision endpoint first. A failed downstream lookup
(record absent) is swallowed, as in the surrounding try block. -/
def notifyStep (item : FlipSyncAbsenceRequest) (ns : NotifState) : NotifState :=
  if item.external_id == "" then ns
  else if item.status != .APPROVED && item.status != .REJECTED then ns
  else
    let trace1 := ns.trace ++ [FlipCall.getByExternalId item.external_id]
    match mapGet ns.store item.external_id with
    | some flipStatus =>
      if flipStatus = .PENDING then
        if item.status = .APPROVED then
          { store := flipApprove ns.store item.external_id,
            trace := trace1 ++ [FlipCall.approve item.absentee item.external_id],
            notifApproved := ns.notifApproved + 1,
            notifRejected := ns.notifRejected }
        else
          { store := flipReject ns.store item.external_id,
            trace := trace1 ++ [FlipCall.reject item.absentee item.external_id],
            notifApproved := ns.notifApproved,
            notifRejected := ns.notifRejected + 1 }
      else { ns with trace := trace1 }
    | none => { ns with trace := trace1 }

/-- Folding the notification pass over the built items. -/
def notifyItems : List FlipSyncAbsenceRequest → NotifState → NotifState
  | [], ns => ns
  | item :: rest, ns => notifyItems rest (notifyStep item ns)

/-- Structural helper for fixed-size batching, driven by a fuel bound. -/
def chunkFuel : Nat → List FlipSyncAbsenceRequest → List (List FlipSyncAbsenceRequest)
  | 0, _ => []
  | _ + 1, [] => []
  | fuel + 1, x :: xs => (x :: xs).take 100 :: chunkFuel fuel ((x :: xs).drop 100)

/-- Fixed-size batching of the push loop; the source batch size is 100. -/
def chunk100 (l : List FlipSyncAbsenceRequest) : List (List FlipSyncAbsenceRequest) :=
  chunkFuel l.length l

/-- Failure injection for the sync-session calls of one run. -/
structure SessionFailures where
  startFails : Bool := false
  pushFailsAt : Option Nat := none
  completeFails : Bool := false
deriving Repr

/-- Push loop over the batches: returns the calls made and whether every
batch call succeeded; a failing batch stops the loop. -/
def pushLoop (syncId : String) (failAt : Option Nat) :
    List (List FlipSyncAbsenceRequest) → Nat → List FlipCall × Bool
  | [], _ => ([], true)
  | batch :: rest, k =>
    if failAt = some k then ([FlipCall.pushBatch syncId batch], false)
    else
      let r := pushLoop syncId failAt rest (k + 1)
      (FlipCall.pushBatch syncId batch :: r.1, r.2)

/-- Outcome of one full-sync run. -/
inductive RunOutcome where
  | ok
  | error
deriving DecidableEq, Repr

/-- Result of one full-sync run: HTTP outcome, call trace, final downstream
store, the built item list and the reported counters. -/
structure RunResult where
  outcome : RunOutcome
  trace : List FlipCall
  store : FlipStore
  syncItems : List FlipSyncAbsenceRequest
  notifApproved : Nat
  notifRejected : Nat
  errorCount : Nat
deriving Repr

/-- The full-sync handler: build items, run the notification pass, then
start, push and complete the bulk-replace session; any session failure
cancels the session and surfaces an error. -/
def runFullSync (mappings : List UserMapping) (upstream : Upstream)
    (policyByExternalId : List (String × String)) (store0 : FlipStore)
    (f : SessionFailures) : RunResult :=
  let built := buildSyncItems upstream policyByExternalId mappings {} 0
  let items := built.1.syncItems
  let ns := notifyItems items
    { store := store0, trace := [], notifApproved := 0, notifRejected := 0 }
  if f.startFails then
    { outcome := .error, trace := ns.trace ++ [FlipCall.startSync], store := ns.store,
      syncItems := items, notifApproved := ns.notifApproved,
      notifRejected := ns.notifRejected, errorCount := built.2 }
  else
    let syncId := "sync-1"
    let pushed := pushLoop syncId f.pushFailsAt (chunk100 items) 0
    let trace1 := ns.trace ++ [FlipCall.startSync] ++ pushed.1
    if !pushed.2 then
      { outcome := .error, trace := trace1 ++ [FlipCall.cancelSync syncId], store := ns.store,
        syncItems := items, notifApproved := ns.notifApproved,
        notifRejected := ns.notifRejected, errorCount := built.2 }
    else if f.completeFails then
      { outcome := .error,
        trace := trace1 ++ [FlipCall.completeSync syncId, FlipCall.cancelSync syncId],
        store := ns.store, syncItems := items, notifApproved := ns.notifApproved,
        notifRejected := ns.notifRejected, errorCount := built.2 }
    else
      { outcome := .ok, trace := trace1 ++ [FlipCall.completeSync syncId],
        store := flipReplaceAll items, syncItems := items,
        notifApproved := ns.notifApproved, notifRejected := ns.notifRejected,
        errorCount := built.2 }

/-- State threaded through the approval-check run. -/
structure CheckState where
  store : FlipStore
  cache : List (String × String)
  trace : List FlipCall
  approved : Nat
  rejected : Nat
  checked : Nat
  skipped : Nat
  errors : Nat
deriving Repr

/-- One iteration of the approval check: only decided requests with action
request are considered; a PENDING downstream record triggers the decision
endpoint with the resolved approver. -/
def checkStep (users : String → Option FlipUser) (flipUserId : String)
    (lr : BreatheLeaveRequest) (cs : CheckState) : CheckState :=
  let status := lrStatusLower lr
  let act := lrActionLower lr
  if act != "request" then cs
  else
    let isApproved := status == "approved"
    let isRejected := isDecidedRejected status
    if !isApproved && !isRejected then cs
    else
      let externalId := Nat.repr lr.id
      let trace1 := cs.trace ++ [FlipCall.getByExternalId externalId]
      match mapGet cs.store externalId with
      | none => { cs with trace := trace1 }
      | some flipStatus =>
        if flipStatus = .PENDING then
          let resolved := resolveApprover users flipUserId cs.cache
          let getUserCalls :=
            if (mapGet cs.cache flipUserId).isSome then []
            else [FlipCall.getUser flipUserId]
          if isApproved then
            { store := flipApprove cs.store externalId, cache := resolved.2,
              trace := trace1 ++ getUserCalls ++ [FlipCall.approve resolved.1 externalId],
              approved := cs.approved + 1, rejected := cs.rejected,
              checked := cs.checked + 1, skipped := cs.skipped, errors := cs.errors }
          else
            { store := flipReject cs.store externalId, cache := resolved.2,
              trace := trace1 ++ getUserCalls ++ [FlipCall.reject resolved.1 externalId],
              approved := cs.approved, rejected := cs.rejected + 1,
              checked := cs.checked + 1, skipped := cs.skipped, errors := cs.errors }
        else
          { cs with trace := trace1, checked := cs.checked + 1, skipped := cs.skipped + 1 }

/-- Folding the approval-check inner loop over one employee leave requests. -/
def checkLeaveRequests (users : String → Option FlipUser) (flipUserId : String) :
    List BreatheLeaveRequest → CheckState → CheckState
  | [], cs => cs
  | lr :: rest, cs =>
    checkLeaveRequests users flipUserId rest (checkStep users flipUserId lr cs)

/-- Outer loop of the approval check over the mapped employees. -/
def checkMappings (upstream : Upstream) (users : String → Option FlipUser) :
    List UserMapping → CheckState → CheckState
  | [], cs => cs
  | m :: rest, cs =>
    let d := upstream m.breatheEmployeeId
    let cs' :=
      if d.fetchFails then { cs with errors := cs.errors + 1 }
      else checkLeaveRequests users m.flipUserId d.leaveRequests cs
    checkMappings upstream users rest cs'

/-- The approval-check handler run from a fresh manager cache and zero counters. -/
def runApprovalCheck (mappings : List UserMapping) (upstream : Upstream)
    (users : String → Option FlipUser) (store0 : FlipStore) : CheckState :=
  checkMappings upstream users mappings
    { store := store0, cache := [], trace := [], approved := 0, rejected := 0,
      checked := 0, skipped := 0, errors := 0 }

/-! Helper lemmas shared by the claim theorems. -/

def c1Request : BreatheLeaveRequest :=
  { id := 100, start_date := some "2025-01-10", end_date := some "2025-01-12",
    status := some "approved", action := some "request" }

def c1Absence : BreatheAbsence :=
  { id := 900, start_date := some "2025-01-10", end_date := some "2025-01-12" }

def c1Map : List (String × BreatheLeaveRequest) := buildLeaveRequestMap [c1Request] []

def c7Request : BreatheLeaveRequest :=
  { id := 100, start_date := some "2025-02-01", end_date := some "2025-02-03",
    status := some "approved" }

def c7Absence : BreatheAbsence :=
  { id := 900, start_date := some "2025-02-01", end_date := some "2025-02-03",
    cancelled := some (.bool true) }

def c7Map : List (String × BreatheLeaveRequest) := buildLeaveRequestMap [c7Request] []

def c8WsLr : BreatheLeaveRequest :=
  { id := 2, rejection_reason := some " ", declined_reason := some "Too busy" }

def c8PriorityLr : BreatheLeaveRequest :=
  { id := 3, declined_reason := some "Too busy" }

def c9Users : String → Option FlipUser := fun _ => some { attributes := some [] }

def c10Absence : BreatheAbsence :=
  { id := 901, start_date := none, end_date := some "2025-03-01" }

def c10BadLr : BreatheLeaveRequest :=
  { id := 5, start_date := some "2025-01-01", end_date := none, status := some "pending" }

/-- Predicate for the notification-emitting decision calls. -/
def isDecisionCall : FlipCall → Bool
  | .approve _ _ => true
  | .reject _ _ => true
  | _ => false

/-- Predicate for the bulk-sync session calls. -/
def isSessionCall : FlipCall → Bool
  | .startSync => true
  | .pushBatch _ _ => true
  | .completeSync _ => true
  | .cancelSync _ => true
  | _ => false

/-- Predicate for the session-cancel call. -/
def isCancelCall : FlipCall → Bool
  | .cancelSync _ => true
  | _ => false

/-- Number of cancel calls in a trace. -/
def countCancel (tr : List FlipCall) : Nat := tr.countP isCancelCall

/-- Number of approve or reject calls in a trace. -/
def countDecision (tr : List FlipCall) : Nat := tr.countP isDecisionCall

def c2Mapping : UserMapping := { flipUserId := "user-1", breatheEmployeeId := 7 }

def c2Upstream : Upstream := fun _ =>
  { absences := [{ id := 900, start_date := some "2025-01-10", end_date := some "2025-01-12" }],
    leaveRequests := [] }

def c2Store : FlipStore := [("900", .PENDING)]

def c5Mapping : UserMapping := { flipUserId := "user-5", breatheEmployeeId := 9 }

def c5Upstream : Upstream := fun _ =>
  { absences := [{ id := 950, start_date := some "2025-04-01", end_date := some "2025-04-02" }],
    leaveRequests := [] }

def c5StartFail : SessionFailures := { startFails := true }

def c5PushFail : SessionFailures := { pushFailsAt := some 0 }

/-- External id the unifier assigns to an absence: the date-matching request
id when present in the map, the absence own id otherwise. -/
def absExternalId (m : List (String × BreatheLeaveRequest)) (a : BreatheAbsence) : String :=
  match mapGet m (absenceDateKey a) with
  | some lr => Nat.repr lr.id
  | none => Nat.repr a.id

/-- Batches carried by the pushBatch events of a trace, in order. -/
def pushedBatches : List FlipCall → List (List FlipSyncAbsenceRequest)
  | [] => []
  | FlipCall.pushBatch _ b :: rest => b :: pushedBatches rest
  | FlipCall.getByExternalId _ :: rest => pushedBatches rest
  | FlipCall.approve _ _ :: rest => pushedBatches rest
  | FlipCall.reject _ _ :: rest => pushedBatches rest
  | FlipCall.startSync :: rest => pushedBatches rest
  | FlipCall.completeSync _ :: rest => pushedBatches rest
  | FlipCall.cancelSync _ :: rest => pushedBatches rest
  | FlipCall.getUser _ :: rest => pushedBatches rest

/-- Every emitted sync item has its external id recorded as seen. -/
def SeenCovers (st : BuildState) : Prop :=
  ∀ it ∈ st.syncItems, it.external_id ∈ st.seenExternalIds

/-- Every recorded external id is carried by some emitted sync item. -/
def SeenFromItems (st : BuildState) : Prop :=
  ∀ e ∈ st.seenExternalIds, ∃ it ∈ st.syncItems, it.external_id = e

/-- Decision status of a leave request qualifying it for section B of the sync. -/
def sectionBStatus (lr : BreatheLeaveRequest) : Prop :=
  lrStatusLower lr = "pending" ∨ isDecidedRejected (lrStatusLower lr) = true

def c3Mapping : UserMapping := { flipUserId := "user-3", breatheEmployeeId := 1 }

def c3BadLr : BreatheLeaveRequest :=
  { id := 5, start_date := some "2025-01-01", end_date := none, status := some "pending" }

def c3BadUpstream : Upstream := fun _ =>
  { absences := [], leaveRequests := [c3BadLr] }

def c3GoodMapping : UserMapping := { flipUserId := "user-3g", breatheEmployeeId := 2 }

def c3GoodLr : BreatheLeaveRequest :=
  { id := 17, start_date := some "2025-05-01", end_date := some "2025-05-02",
    status := some "pending" }

def c3GoodUpstream : Upstream := fun _ =>
  { absences := [{ id := 830, start_date := some "2025-06-01", end_date := some "2025-06-03" }],
    leaveRequests := [c3GoodLr] }

/-- Number of sync items carrying a given external id. -/
def countEid (items : List FlipSyncAbsenceRequest) (e : String) : Nat :=
  items.countP (fun it => it.external_id == e)

/-- Boolean form of the section-B qualification of a leave request. -/
def sectionBStatusB (lr : BreatheLeaveRequest) : Bool :=
  (lrStatusLower lr == "pending") || isDecidedRejected (lrStatusLower lr)

def c6ApprovedLr : BreatheLeaveRequest :=
  { id := 7, start_date := some "2025-07-01", end_date := some "2025-07-03",
    status := some "approved" }

def c6Data : EmployeeData := { absences := [], leaveRequests := [c6ApprovedLr] }

def c6WAbsence : BreatheAbsence :=
  { id := 900, start_date := some "2025-01-10", end_date := some "2025-01-12" }

def c6WLr : BreatheLeaveRequest :=
  { id := 100, start_date := some "2025-02-10", end_date := some "2025-02-12",
    status := some "pending" }

def c6WData : EmployeeData := { absences := [c6WAbsence], leaveRequests := [c6WLr] }

/-- Status of the last pushed item carrying a given external id. -/
def lastItemStatus (items : List FlipSyncAbsenceRequest) (k : String) :
    Option AbsenceRequestStatus :=
  (items.reverse.find? (fun it => it.external_id == k)).map (fun it => it.status)

/-- No APPROVED or REJECTED item is shadowed by a later PENDING record of the
same external id in the replaced store. -/
def NoPendingShadow (items : List FlipSyncAbsenceRequest) : Prop :=
  ∀ it ∈ items, (it.status = .APPROVED ∨ it.status = .REJECTED) →
    lastItemStatus items it.external_id ≠ some .PENDING

/-- Leave requests the approval check acts on: action request and a decided
upstream status. -/
def Qualifying (lr : BreatheLeaveRequest) : Prop :=
  lrActionLower lr = "request"
  ∧ (lrStatusLower lr = "approved" ∨ isDecidedRejected (lrStatusLower lr) = true)

/-- Store evolution of the approval check: a record either keeps its status
or moves from PENDING to a decided status. -/
def StoreMono (S S' : FlipStore) : Prop :=
  ∀ k, mapGet S' k = mapGet S k
    ∨ (mapGet S k = some .PENDING
      ∧ (mapGet S' k = some .APPROVED ∨ mapGet S' k = some .REJECTED))

theorem toDigitsCore_len_le (b : Nat) :
    ∀ (fuel n : Nat) (ds : List Char), ds.length ≤ (Nat.toDigitsCore b fuel n ds).length := by
  intro fuel
  induction fuel with
  | zero => intro n ds; simp [Nat.toDigitsCore]
  | succ f ih =>
    intro n ds
    simp only [Nat.toDigitsCore]
    split
    · simp
    · exact le_trans (by simp) (ih _ _)

theorem natRepr_ne_empty (n : Nat) : Nat.repr n ≠ "" := by
  have h : 1 ≤ (Nat.toDigits 10 n).length := by
    unfold Nat.toDigits
    simp only [Nat.toDigitsCore]
    split
    · simp
    · have := toDigitsCore_len_le 10 n (n / 10) [Nat.digitChar (n % 10)]
      simpa using le_trans (by simp) this
  intro heq
  unfold Nat.repr at heq
  have hnil : (Nat.toDigits 10 n) = [] := by
    have := congrArg String.data heq
    simpa [List.asString] using this
  rw [hnil] at h
  simp at h

theorem pushLoop_none_ok (syncId : String) :
    ∀ (bs : List (List FlipSyncAbsenceRequest)) (k : Nat), (pushLoop syncId none bs k).2 = true := by
  intro bs
  induction bs with
  | nil => intro k; rfl
  | cons b rest ih => intro k; simpa [pushLoop] using ih (k + 1)

theorem runFullSync_noFailures_ok (mappings : List UserMapping) (upstream : Upstream)
    (pol : List (String × String)) (store0 : FlipStore) :
    (runFullSync mappings upstream pol store0 {}).outcome = .ok := by
  unfold runFullSync
  simp [pushLoop_none_ok]

theorem firstTruthy_eq_get (l : List (Option String)) :
    ∀ (i : Nat) (hi : i < l.length),
      (∀ j (hj : j < i), truthy (l.get ⟨j, lt_trans hj hi⟩) = false) →
      truthy (l.get ⟨i, hi⟩) = true →
      firstTruthy l = l.get ⟨i, hi⟩ := by
  induction l with
  | nil => intro i hi; simp at hi
  | cons x rest ih =>
    intro i hi hprev hcur
    cases i with
    | zero =>
      have hx : truthy x = true := by simpa [List.get] using hcur
      simp [firstTruthy, hx, List.get]
    | succ i' =>
      have hx : truthy x = false := by
        have := hprev 0 (Nat.succ_pos i')
        simpa [List.get] using this
      have hi' : i' < rest.length := Nat.lt_of_succ_lt_succ hi
      have := ih i' hi'
        (fun j hj => by
          have := hprev (j + 1) (Nat.succ_lt_succ hj)
          simpa [List.get] using this)
        (by simpa [List.get] using hcur)
      simpa [firstTruthy, hx, List.get] using this

theorem extractRejectionReason_eq (lr : BreatheLeaveRequest) :
    extractRejectionReason lr =
      match firstTruthy (rejectionFields lr) with
      | some s => if jsTrim s != "" then some (jsTrim s) else none
      | none => none := rfl

/-! Fixtures and theorems for the claims about the projector functions. -/

/-- Claim C1 counterexample: a pending request (id 100) has transitioned to a
non-cancelled absence (id 900) with the same date range, yet the sync item
produced for the absence carries the request id 100 as external_id, not the
absence id 900 the claim requires. -/
theorem claim_C1_counterexample :
    (mapBreatheAbsenceToFlipSync c1Absence "user-1" [] c1Map).map
      (fun it => it.external_id) = some "100"
    ∧ absenceIsCancelled c1Absence = false
    ∧ mapGet c1Map (absenceDateKey c1Absence) = some c1Request
    ∧ Nat.repr c1Absence.id = "900"
    ∧ ("100" : String) ≠ "900" := by decide

/-- Claim C1 (amended): once a pending request has transitioned to an approved
absence, every sync item produced for the absence carries the date-matching
request id as external_id (the identity established at creation), not the
absence id. -/
theorem claim_C1_amended (absence : BreatheAbsence) (flipUserId : String)
    (pol : List (String × String)) (m : List (String × BreatheLeaveRequest))
    (lr : BreatheLeaveRequest) (h : mapGet m (absenceDateKey absence) = some lr) :
    (mapBreatheAbsenceToFlipSync absence flipUserId pol m).map
      (fun it => it.external_id) = some (Nat.repr lr.id) := by
  simp [mapBreatheAbsenceToFlipSync, h]

/-- Claim C1 witness: the amended statement evaluated on the concrete
request 100 and absence 900 scenario. -/
theorem claim_C1_witness :
    mapGet c1Map (absenceDateKey c1Absence) = some c1Request
    ∧ (mapBreatheAbsenceToFlipSync c1Absence "user-1" [] c1Map).map
        (fun it => it.external_id) = some (Nat.repr c1Request.id) :=
  ⟨by decide, claim_C1_amended c1Absence "user-1" [] c1Map c1Request (by decide)⟩

/-- Claim C7 counterexample: a cancelled absence with a date-matching request
produces a CANCELLED item whose external_id is the request id 100, not the
absence own id 900 the claim requires. -/
theorem claim_C7_counterexample :
    (mapBreatheAbsenceToFlipSync c7Absence "user-1" [] c7Map).map
      (fun it => it.external_id) = some "100"
    ∧ (mapBreatheAbsenceToFlipSync c7Absence "user-1" [] c7Map).map
        (fun it => it.status) = some .CANCELLED
    ∧ absenceIsCancelled c7Absence = true
    ∧ Nat.repr c7Absence.id = "900"
    ∧ ("100" : String) ≠ "900" := by decide

/-- Claim C7 (amended): an absence projects to status CANCELLED exactly when
cancelled and APPROVED otherwise, and its external_id is the date-matching
request id when one exists, the absence own id otherwise — the request
linkage applies to cancelled and non-cancelled absences alike. -/
theorem claim_C7_amended (absence : BreatheAbsence) (flipUserId : String)
    (pol : List (String × String)) (m : List (String × BreatheLeaveRequest)) :
    (mapBreatheAbsenceToFlipSync absence flipUserId pol m).map
      (fun it => it.status)
      = some (if absenceIsCancelled absence then AbsenceRequestStatus.CANCELLED
              else AbsenceRequestStatus.APPROVED)
    ∧ (mapBreatheAbsenceToFlipSync absence flipUserId pol m).map
        (fun it => it.external_id)
      = some (match mapGet m (absenceDateKey absence) with
              | some lr => Nat.repr lr.id
              | none => Nat.repr absence.id) := by
  constructor
  · simp [mapBreatheAbsenceToFlipSync]
  · cases h : mapGet m (absenceDateKey absence) <;>
      simp [mapBreatheAbsenceToFlipSync, h]

/-- Claim C8 counterexample: a whitespace-only rejection_reason is truthy in
the OR chain, so it wins the selection even though it trims to nothing; the
extractor then returns none instead of passing over to the next field,
whose non-blank value Too busy the claim requires. -/
theorem claim_C8_counterexample :
    extractRejectionReason c8WsLr = none
    ∧ c8WsLr.rejection_reason = some " "
    ∧ jsTrim " " = ""
    ∧ c8WsLr.declined_reason = some "Too busy"
    ∧ jsTrim "Too busy" ≠ "" := by decide

/-- Claim C8 (amended): the extractor selects the first truthy (non-empty)
field in the fixed priority order — empty or missing fields are passed over —
and returns its trimmed value; but when the selected value is whitespace-only
the result is none, without consulting any later field. -/
theorem claim_C8_amended :
    (∀ (lr : BreatheLeaveRequest) (i : Nat) (hi : i < (rejectionFields lr).length)
        (s : String),
      (∀ j (hj : j < i), truthy ((rejectionFields lr).get ⟨j, lt_trans hj hi⟩) = false) →
      (rejectionFields lr).get ⟨i, hi⟩ = some s → s ≠ "" →
      extractRejectionReason lr = if jsTrim s != "" then some (jsTrim s) else none)
    ∧ (∀ (lr : BreatheLeaveRequest) (s : String),
      firstTruthy (rejectionFields lr) = some s → jsTrim s = "" →
      extractRejectionReason lr = none) := by
  constructor
  · intro lr i hi s hprev hget hs
    have hcur : truthy ((rejectionFields lr).get ⟨i, hi⟩) = true := by
      rw [hget]; simpa [truthy] using hs
    have hft : firstTruthy (rejectionFields lr) = (rejectionFields lr).get ⟨i, hi⟩ :=
      firstTruthy_eq_get (rejectionFields lr) i hi hprev hcur
    rw [extractRejectionReason_eq, hft, hget]
  · intro lr s hft hs
    rw [extractRejectionReason_eq, hft]
    simp [hs]

/-- Claim C8 witness: with an absent rejection_reason (index 0 falsy) the
declined_reason at index 1 is selected and returned trimmed. -/
theorem claim_C8_witness :
    (1 < (rejectionFields c8PriorityLr).length
      ∧ (rejectionFields c8PriorityLr).get ⟨1, by decide⟩ = some "Too busy")
    ∧ extractRejectionReason c8PriorityLr = some "Too busy" := by
  refine ⟨⟨by decide, by decide⟩, ?_⟩
  rw [claim_C8_amended.1 c8PriorityLr 1 (by decide) "Too busy"
    (by decide) (by decide) (by decide)]
  decide

/-- Claim C9: the code contradicts its own documentation. The doc comment of
resolveApprover states that when no manager attribute is found it falls back
to a hardcoded admin user and that the approver MUST be different from the
absentee; the implementation instead returns the absentee themselves as the
approver (self-approval) and caches that choice — shown here both for a user
whose profile has no manager attribute and for a user whose profile lookup
throws. -/
theorem claim_C9_code_bug :
    (resolveApprover c9Users "user-1" []).1 = "user-1"
    ∧ (resolveApprover (fun _ => none) "user-1" []).1 = "user-1"
    ∧ mapGet (resolveApprover c9Users "user-1" []).2 "user-1" = some "user-1" := by decide

/-- Claim C10 counterexample: an absence record with a missing start date is
not skipped — the absence projector still emits a sync item for it, against
the claim that every record with a missing date is skipped regardless of
whether it originates from a leave request or from an absence. -/
theorem claim_C10_counterexample :
    (mapBreatheAbsenceToFlipSync c10Absence "user-1" [] []).isSome = true
    ∧ c10Absence.start_date = none := by decide

/-- Claim C10 (amended): a leave-request record is skipped (projects to none)
exactly when its start or end date is falsy, and that skip never fails the
run — a full-sync run without session failures completes ok; absence records,
however, are never skipped: the absence projector always emits an item. -/
theorem claim_C10_amended :
    (∀ (lr : BreatheLeaveRequest) (u : String) (st : AbsenceRequestStatus),
      (truthy lr.start_date = false ∨ truthy lr.end_date = false) →
      mapLeaveRequestToFlipSync lr u st = none)
    ∧ (∀ (lr : BreatheLeaveRequest) (u : String) (st : AbsenceRequestStatus),
      mapLeaveRequestToFlipSync lr u st = none →
      truthy lr.start_date = false ∨ truthy lr.end_date = false)
    ∧ (∀ (a : BreatheAbsence) (u : String) (pol : List (String × String))
        (m : List (String × BreatheLeaveRequest)),
      (mapBreatheAbsenceToFlipSync a u pol m).isSome = true)
    ∧ (∀ (mappings : List UserMapping) (upstream : Upstream)
        (pol : List (String × String)) (store0 : FlipStore),
      (runFullSync mappings upstream pol store0 {}).outcome = .ok) := by
  refine ⟨?_, ?_, ?_, ?_⟩
  · intro lr u st h
    rcases h with h | h <;> simp [mapLeaveRequestToFlipSync, h]
  · intro lr u st h
    by_contra hc
    push_neg at hc
    have h1 : truthy lr.start_date = true := by
      cases hx : truthy lr.start_date
      · exact absurd hx hc.1
      · rfl
    have h2 : truthy lr.end_date = true := by
      cases hx : truthy lr.end_date
      · exact absurd hx hc.2
      · rfl
    simp [mapLeaveRequestToFlipSync, h1, h2] at h
  · intro a u pol m
    simp [mapBreatheAbsenceToFlipSync]
  · intro mappings upstream pol store0
    exact runFullSync_noFailures_ok mappings upstream pol store0

/-- Claim C10 witness: the amended statement evaluated on a pending leave
request with a missing end date, which is skipped. -/
theorem claim_C10_witness :
    truthy c10BadLr.end_date = false
    ∧ mapLeaveRequestToFlipSync c10BadLr "user-1" .PENDING = none :=
  ⟨by decide, claim_C10_amended.1 c10BadLr "user-1" .PENDING (Or.inr (by decide))⟩

theorem notifyStep_trace (item : FlipSyncAbsenceRequest) (ns : NotifState) :
    ∃ ext, (notifyStep item ns).trace = ns.trace ++ ext
      ∧ ∀ c ∈ ext, isSessionCall c = false := by
  unfold notifyStep
  split
  · exact ⟨[], by simp, by simp⟩
  split
  · exact ⟨[], by simp, by simp⟩
  split
  · split
    · split
      · exact ⟨[FlipCall.getByExternalId item.external_id,
          FlipCall.approve item.absentee item.external_id],
          by simp, by simp [isSessionCall]⟩
      · exact ⟨[FlipCall.getByExternalId item.external_id,
          FlipCall.reject item.absentee item.external_id],
          by simp, by simp [isSessionCall]⟩
    · exact ⟨[FlipCall.getByExternalId item.external_id], by simp, by simp [isSessionCall]⟩
  · exact ⟨[FlipCall.getByExternalId item.external_id], by simp, by simp [isSessionCall]⟩

theorem notifyItems_trace : ∀ (items : List FlipSyncAbsenceRequest) (ns : NotifState),
    ∃ ext, (notifyItems items ns).trace = ns.trace ++ ext
      ∧ ∀ c ∈ ext, isSessionCall c = false := by
  intro items
  induction items with
  | nil => intro ns; exact ⟨[], by simp [notifyItems], by simp⟩
  | cons item rest ih =>
    intro ns
    obtain ⟨e1, he1, hs1⟩ := notifyStep_trace item ns
    obtain ⟨e2, he2, hs2⟩ := ih (notifyStep item ns)
    refine ⟨e1 ++ e2, ?_, ?_⟩
    · simp only [notifyItems, he2, he1, List.append_assoc]
    · intro c hc
      rcases List.mem_append.mp hc with h | h
      · exact hs1 c h
      · exact hs2 c h

theorem pushLoop_calls (syncId : String) (failAt : Option Nat) :
    ∀ (bs : List (List FlipSyncAbsenceRequest)) (k : Nat),
      ∀ c ∈ (pushLoop syncId failAt bs k).1,
        isDecisionCall c = false ∧ isCancelCall c = false := by
  intro bs
  induction bs with
  | nil => intro k c hc; simp [pushLoop] at hc
  | cons b rest ih =>
    intro k c hc
    by_cases hf : failAt = some k
    · simp [pushLoop, hf] at hc
      subst hc; exact ⟨rfl, rfl⟩
    · simp [pushLoop, hf] at hc
      rcases hc with hc | hc
      · subst hc; exact ⟨rfl, rfl⟩
      · exact ih (k + 1) c hc

theorem runFullSync_trace_split (mappings : List UserMapping) (upstream : Upstream)
    (pol : List (String × String)) (store0 : FlipStore) (f : SessionFailures) :
    ∃ pre suf, (runFullSync mappings upstream pol store0 f).trace = pre ++ suf
      ∧ (∀ c ∈ pre, isSessionCall c = false)
      ∧ (∀ c ∈ suf, isDecisionCall c = false) := by
  obtain ⟨ext, hext, hsess⟩ := notifyItems_trace
    (buildSyncItems upstream pol mappings {} 0).1.syncItems
    { store := store0, trace := [], notifApproved := 0, notifRejected := 0 }
  have hpre : ∀ c ∈ (notifyItems (buildSyncItems upstream pol mappings {} 0).1.syncItems
      { store := store0, trace := [], notifApproved := 0, notifRejected := 0 }).trace,
      isSessionCall c = false := by
    intro c hc
    rw [hext] at hc
    exact hsess c (by simpa using hc)
  have hpush := pushLoop_calls "sync-1" f.pushFailsAt
    (chunk100 (buildSyncItems upstream pol mappings {} 0).1.syncItems) 0
  have hsufOk : ∀ (tail : List FlipCall), (∀ c ∈ tail, isDecisionCall c = false) →
      ∀ c ∈ FlipCall.startSync ::
        ((pushLoop "sync-1" f.pushFailsAt
          (chunk100 (buildSyncItems upstream pol mappings {} 0).1.syncItems) 0).1 ++ tail),
        isDecisionCall c = false := by
    intro tail htail c hcm
    rcases List.mem_cons.mp hcm with rfl | hcm
    · rfl
    · rcases List.mem_append.mp hcm with hcm | hcm
      · exact (hpush c hcm).1
      · exact htail c hcm
  unfold runFullSync
  by_cases hs : f.startFails = true
  · simp only [hs, if_true]
    exact ⟨_, [FlipCall.startSync], rfl, hpre, by simp [isDecisionCall]⟩
  · simp only [Bool.not_eq_true] at hs
    simp only [hs, Bool.false_eq_true, if_false]
    by_cases hp : (pushLoop "sync-1" f.pushFailsAt
        (chunk100 (buildSyncItems upstream pol mappings {} 0).1.syncItems) 0).2 = true
    · simp only [hp, Bool.not_true, Bool.false_eq_true, if_false]
      by_cases hc : f.completeFails = true
      · simp only [hc, if_true]
        refine ⟨(notifyItems (buildSyncItems upstream pol mappings {} 0).1.syncItems
            { store := store0, trace := [], notifApproved := 0, notifRejected := 0 }).trace,
          FlipCall.startSync ::
            ((pushLoop "sync-1" f.pushFailsAt
              (chunk100 (buildSyncItems upstream pol mappings {} 0).1.syncItems) 0).1 ++
             [FlipCall.completeSync "sync-1", FlipCall.cancelSync "sync-1"]),
          by simp, hpre, hsufOk _ ?_⟩
        intro c hcm
        rcases List.mem_cons.mp hcm with rfl | hcm
        · rfl
        · rw [List.mem_singleton] at hcm; subst hcm; rfl
      · simp only [Bool.not_eq_true] at hc
        simp only [hc, Bool.false_eq_true, if_false]
        refine ⟨(notifyItems (buildSyncItems upstream pol mappings {} 0).1.syncItems
            { store := store0, trace := [], notifApproved := 0, notifRejected := 0 }).trace,
          FlipCall.startSync ::
            ((pushLoop "sync-1" f.pushFailsAt
              (chunk100 (buildSyncItems upstream pol mappings {} 0).1.syncItems) 0).1 ++
             [FlipCall.completeSync "sync-1"]),
          by simp, hpre, hsufOk _ ?_⟩
        intro c hcm
        rw [List.mem_singleton] at hcm; subst hcm; rfl
    · simp only [Bool.not_eq_true] at hp
      simp only [hp, Bool.not_false, if_true]
      refine ⟨(notifyItems (buildSyncItems upstream pol mappings {} 0).1.syncItems
          { store := store0, trace := [], notifApproved := 0, notifRejected := 0 }).trace,
        FlipCall.startSync ::
          ((pushLoop "sync-1" f.pushFailsAt
            (chunk100 (buildSyncItems upstream pol mappings {} 0).1.syncItems) 0).1 ++
           [FlipCall.cancelSync "sync-1"]),
        by simp, hpre, hsufOk _ ?_⟩
      intro c hcm
      rw [List.mem_singleton] at hcm; subst hcm; rfl

theorem split_index_lt {α : Type} (l pre suf : List α) (hsplit : l = pre ++ suf)
    (P Q : α → Bool)
    (hpre : ∀ e ∈ pre, Q e = false) (hsuf : ∀ e ∈ suf, P e = false)
    (i j : Nat) (hi : i < l.length) (hj : j < l.length)
    (hP : P (l.get ⟨i, hi⟩) = true) (hQ : Q (l.get ⟨j, hj⟩) = true) :
    i < j := by
  subst hsplit
  have hiLt : i < pre.length := by
    by_contra hge
    push_neg at hge
    have hlen : i - pre.length < suf.length := by
      have := hi
      simp only [List.length_append] at this
      omega
    have heq : (pre ++ suf).get ⟨i, hi⟩ = suf.get ⟨i - pre.length, hlen⟩ := by
      rw [List.get_eq_getElem, List.get_eq_getElem]
      exact List.getElem_append_right hge
    have hmem : (pre ++ suf).get ⟨i, hi⟩ ∈ suf := by
      rw [heq]
      exact List.get_mem suf _ _
    rw [hsuf _ hmem] at hP
    exact Bool.false_ne_true hP
  have hjGe : pre.length ≤ j := by
    by_contra hlt
    push_neg at hlt
    have heq : (pre ++ suf).get ⟨j, hj⟩ = pre.get ⟨j, hlt⟩ := by
      rw [List.get_eq_getElem, List.get_eq_getElem]
      exact List.getElem_append_left hlt
    have hmem : (pre ++ suf).get ⟨j, hj⟩ ∈ pre := by
      rw [heq]
      exact List.get_mem pre _ _
    rw [hpre _ hmem] at hQ
    exact Bool.false_ne_true hQ
  omega

/-- Claim C2: within one full-sync run, every approve or reject call occurs
strictly before every bulk-sync session call (start, push, complete or
cancel) in the call trace — notify-before-replace ordering. -/
theorem claim_C2_order (mappings : List UserMapping) (upstream : Upstream)
    (pol : List (String × String)) (store0 : FlipStore) (f : SessionFailures)
    (i j : Nat)
    (hi : i < (runFullSync mappings upstream pol store0 f).trace.length)
    (hj : j < (runFullSync mappings upstream pol store0 f).trace.length)
    (hdi : isDecisionCall ((runFullSync mappings upstream pol store0 f).trace.get ⟨i, hi⟩) = true)
    (hsj : isSessionCall ((runFullSync mappings upstream pol store0 f).trace.get ⟨j, hj⟩) = true) :
    i < j := by
  obtain ⟨pre, suf, htr, hpre, hsuf⟩ :=
    runFullSync_trace_split mappings upstream pol store0 f
  exact split_index_lt _ pre suf htr isDecisionCall isSessionCall hpre hsuf i j hi hj hdi hsj

/-- Claim C2 witness: in a run where an APPROVED item meets a PENDING
downstream record, the approve call (trace index 1) precedes the session
start (trace index 2), by the ordering theorem. -/
theorem claim_C2_witness :
    (isDecisionCall ((runFullSync [c2Mapping] c2Upstream [] c2Store {}).trace.get
        ⟨1, by decide⟩) = true
      ∧ isSessionCall ((runFullSync [c2Mapping] c2Upstream [] c2Store {}).trace.get
        ⟨2, by decide⟩) = true)
    ∧ 1 < 2 :=
  ⟨⟨by decide, by decide⟩,
    claim_C2_order [c2Mapping] c2Upstream [] c2Store {} 1 2
      (by decide) (by decide) (by decide) (by decide)⟩

theorem session_of_cancel (c : FlipCall) : isCancelCall c = true → isSessionCall c = true := by
  cases c <;> simp [isCancelCall, isSessionCall]

theorem notify_countCancel (items : List FlipSyncAbsenceRequest) (store0 : FlipStore) :
    countCancel (notifyItems items
      { store := store0, trace := [], notifApproved := 0, notifRejected := 0 }).trace = 0 := by
  obtain ⟨ext, hext, hsess⟩ := notifyItems_trace items
    { store := store0, trace := [], notifApproved := 0, notifRejected := 0 }
  unfold countCancel
  rw [List.countP_eq_zero]
  intro c hc
  rw [hext] at hc
  have hs := hsess c (by simpa using hc)
  intro hcanc
  rw [session_of_cancel c hcanc] at hs
  simp at hs

theorem pushLoop_countCancel (syncId : String) (failAt : Option Nat)
    (bs : List (List FlipSyncAbsenceRequest)) (k : Nat) :
    countCancel (pushLoop syncId failAt bs k).1 = 0 := by
  unfold countCancel
  rw [List.countP_eq_zero]
  intro c hc
  have := (pushLoop_calls syncId failAt bs k c hc).2
  simp [this]

theorem runFullSync_syncItems_eq (mappings : List UserMapping) (upstream : Upstream)
    (pol : List (String × String)) (store0 : FlipStore) (f : SessionFailures) :
    (runFullSync mappings upstream pol store0 f).syncItems
      = (buildSyncItems upstream pol mappings {} 0).1.syncItems := by
  unfold runFullSync
  by_cases hs : f.startFails = true
  · simp [hs]
  · simp only [Bool.not_eq_true] at hs
    simp only [hs, Bool.false_eq_true, if_false]
    by_cases hp : (pushLoop "sync-1" f.pushFailsAt
        (chunk100 (buildSyncItems upstream pol mappings {} 0).1.syncItems) 0).2 = true
    · simp only [hp, Bool.not_true, Bool.false_eq_true, if_false]
      by_cases hc : f.completeFails = true
      · simp [hc]
      · simp only [Bool.not_eq_true] at hc
        simp [hc]
    · simp only [Bool.not_eq_true] at hp
      simp [hp]

/-- Claim C5: a session-start failure surfaces an error with no cancel call;
a push-batch failure after a successful start, or a complete failure, surfaces
an error with exactly one cancel call, issued on the open session. -/
theorem claim_C5_cancel (mappings : List UserMapping) (upstream : Upstream)
    (pol : List (String × String)) (store0 : FlipStore) (f : SessionFailures) :
    (f.startFails = true →
      (runFullSync mappings upstream pol store0 f).outcome = .error
      ∧ countCancel (runFullSync mappings upstream pol store0 f).trace = 0)
    ∧ (f.startFails = false →
      (pushLoop "sync-1" f.pushFailsAt
        (chunk100 (runFullSync mappings upstream pol store0 f).syncItems) 0).2 = false →
      (runFullSync mappings upstream pol store0 f).outcome = .error
      ∧ countCancel (runFullSync mappings upstream pol store0 f).trace = 1
      ∧ FlipCall.cancelSync "sync-1" ∈ (runFullSync mappings upstream pol store0 f).trace)
    ∧ (f.startFails = false →
      (pushLoop "sync-1" f.pushFailsAt
        (chunk100 (runFullSync mappings upstream pol store0 f).syncItems) 0).2 = true →
      f.completeFails = true →
      (runFullSync mappings upstream pol store0 f).outcome = .error
      ∧ countCancel (runFullSync mappings upstream pol store0 f).trace = 1
      ∧ FlipCall.cancelSync "sync-1" ∈ (runFullSync mappings upstream pol store0 f).trace) := by
  have hN := notify_countCancel (buildSyncItems upstream pol mappings {} 0).1.syncItems store0
  have hP := pushLoop_countCancel "sync-1" f.pushFailsAt
    (chunk100 (buildSyncItems upstream pol mappings {} 0).1.syncItems) 0
  have hItems := runFullSync_syncItems_eq mappings upstream pol store0 f
  refine ⟨?_, ?_, ?_⟩
  · intro hs
    unfold runFullSync
    simp only [hs, if_true]
    refine ⟨trivial, ?_⟩
    unfold countCancel at hN ⊢
    rw [List.countP_append, hN]
    decide
  · intro hs hp
    rw [hItems] at hp
    unfold runFullSync
    simp only [hs, Bool.false_eq_true, if_false, hp, Bool.not_false, if_true]
    refine ⟨trivial, ?_, ?_⟩
    · unfold countCancel at hN hP ⊢
      simp only [List.countP_append, hN, hP]
      decide
    · simp
  · intro hs hp hc
    rw [hItems] at hp
    unfold runFullSync
    simp only [hs, Bool.false_eq_true, if_false, hp, Bool.not_true, if_false, hc, if_true]
    refine ⟨trivial, ?_, ?_⟩
    · unfold countCancel at hN hP ⊢
      simp only [List.countP_append, hN, hP]
      decide
    · simp

/-- Claim C5 witness: the cancel-on-failure theorem evaluated on a concrete
run with a failing session start (no cancel) and on a concrete run with a
failing first push batch (exactly one cancel). -/
theorem claim_C5_witness :
    ((runFullSync [c5Mapping] c5Upstream [] [] c5StartFail).outcome = .error
      ∧ countCancel (runFullSync [c5Mapping] c5Upstream [] [] c5StartFail).trace = 0)
    ∧ ((runFullSync [c5Mapping] c5Upstream [] [] c5PushFail).outcome = .error
      ∧ countCancel (runFullSync [c5Mapping] c5Upstream [] [] c5PushFail).trace = 1
      ∧ FlipCall.cancelSync "sync-1" ∈ (runFullSync [c5Mapping] c5Upstream [] [] c5PushFail).trace) :=
  ⟨(claim_C5_cancel [c5Mapping] c5Upstream [] [] c5StartFail).1 (by decide),
   (claim_C5_cancel [c5Mapping] c5Upstream [] [] c5PushFail).2.1 (by decide) (by decide)⟩

theorem mapBreathe_fields (a : BreatheAbsence) (u : String)
    (pol : List (String × String)) (m : List (String × BreatheLeaveRequest)) :
    ∃ it, mapBreatheAbsenceToFlipSync a u pol m = some it
      ∧ it.external_id = absExternalId m a
      ∧ it.status = (if absenceIsCancelled a then AbsenceRequestStatus.CANCELLED
          else AbsenceRequestStatus.APPROVED) :=
  ⟨_, rfl, rfl, rfl⟩

theorem absExternalId_ne_empty (m : List (String × BreatheLeaveRequest)) (a : BreatheAbsence) :
    absExternalId m a ≠ "" := by
  unfold absExternalId
  cases mapGet m (absenceDateKey a) with
  | none => exact natRepr_ne_empty a.id
  | some lr => exact natRepr_ne_empty lr.id

theorem mapLR_fields (lr : BreatheLeaveRequest) (u : String) (s : AbsenceRequestStatus)
    (h1 : truthy lr.start_date = true) (h2 : truthy lr.end_date = true) :
    ∃ it, mapLeaveRequestToFlipSync lr u s = some it
      ∧ it.external_id = Nat.repr lr.id := by
  unfold mapLeaveRequestToFlipSync
  rw [h1, h2]
  exact ⟨_, rfl, rfl⟩

theorem absenceStep_mono (u : String) (pol : List (String × String))
    (m : List (String × BreatheLeaveRequest)) (a : BreatheAbsence) (st : BuildState) :
    ∀ it ∈ st.syncItems, it ∈ (absenceStep u pol m a st).syncItems := by
  intro it hit
  unfold absenceStep
  repeat' split
  all_goals first
    | exact hit
    | (simp only [List.mem_append]; exact Or.inl hit)

theorem lrStep_mono (u : String) (lr : BreatheLeaveRequest) (st : BuildState) :
    ∀ it ∈ st.syncItems, it ∈ (lrStep u lr st).syncItems := by
  intro it hit
  unfold lrStep
  dsimp only
  split_ifs
  all_goals repeat' split
  all_goals first
    | exact hit
    | (simp only [List.mem_append]; exact Or.inl hit)

theorem addAbsenceItems_mono (u : String) (pol : List (String × String))
    (m : List (String × BreatheLeaveRequest)) :
    ∀ (absences : List BreatheAbsence) (st : BuildState),
      ∀ it ∈ st.syncItems, it ∈ (addAbsenceItems u pol m absences st).syncItems := by
  intro absences
  induction absences with
  | nil => intro st it hit; exact hit
  | cons a rest ih =>
    intro st it hit
    exact ih _ it (absenceStep_mono u pol m a st it hit)

theorem addLeaveRequestItems_mono (u : String) :
    ∀ (lrs : List BreatheLeaveRequest) (st : BuildState),
      ∀ it ∈ st.syncItems, it ∈ (addLeaveRequestItems u lrs st).syncItems := by
  intro lrs
  induction lrs with
  | nil => intro st it hit; exact hit
  | cons lr rest ih =>
    intro st it hit
    exact ih _ it (lrStep_mono u lr st it hit)

theorem processEmployee_mono (u : String) (pol : List (String × String))
    (d : EmployeeData) (st : BuildState) :
    ∀ it ∈ st.syncItems, it ∈ (processEmployee u pol d st).syncItems := by
  intro it hit
  unfold processEmployee
  exact addLeaveRequestItems_mono u _ _ it
    (addAbsenceItems_mono u pol _ d.absences st it hit)

theorem buildSyncItems_mono (upstream : Upstream) (pol : List (String × String)) :
    ∀ (mappings : List UserMapping) (st : BuildState) (errs : Nat),
      ∀ it ∈ st.syncItems, it ∈ (buildSyncItems upstream pol mappings st errs).1.syncItems := by
  intro mappings
  induction mappings with
  | nil => intro st errs it hit; exact hit
  | cons m rest ih =>
    intro st errs it hit
    unfold buildSyncItems
    dsimp only
    split
    · exact ih st (errs + 1) it hit
    · exact ih _ errs it (processEmployee_mono m.flipUserId pol _ st it hit)

theorem absenceStep_seenFrom (u : String) (pol : List (String × String))
    (m : List (String × BreatheLeaveRequest)) (a : BreatheAbsence) (st : BuildState)
    (h : SeenFromItems st) : SeenFromItems (absenceStep u pol m a st) := by
  unfold absenceStep
  repeat' split
  all_goals try exact h
  intro e he
  rcases List.mem_append.mp he with he | he
  · obtain ⟨it, hit, heq⟩ := h e he
    exact ⟨it, List.mem_append.mpr (Or.inl hit), heq⟩
  · rw [List.mem_singleton] at he
    subst he
    exact ⟨_, List.mem_append.mpr (Or.inr (List.mem_singleton.mpr rfl)), rfl⟩

theorem mapLR_eid_of_some (lr : BreatheLeaveRequest) (u : String)
    (s : AbsenceRequestStatus) (it : FlipSyncAbsenceRequest)
    (h : mapLeaveRequestToFlipSync lr u s = some it) :
    it.external_id = Nat.repr lr.id := by
  unfold mapLeaveRequestToFlipSync at h
  split at h
  · exact absurd h (by simp)
  · cases h
    rfl

theorem lrStep_seenFrom (u : String) (lr : BreatheLeaveRequest) (st : BuildState)
    (h : SeenFromItems st) : SeenFromItems (lrStep u lr st) := by
  unfold lrStep
  dsimp only
  split_ifs
  all_goals repeat' split
  all_goals try exact h
  all_goals {
    rename_i hsome
    intro e he
    rcases List.mem_append.mp he with he | he
    · obtain ⟨it, hit, heq⟩ := h e he
      exact ⟨it, List.mem_append.mpr (Or.inl hit), heq⟩
    · rw [List.mem_singleton] at he
      subst he
      exact ⟨_, List.mem_append.mpr (Or.inr (List.mem_singleton.mpr rfl)),
        mapLR_eid_of_some lr u _ _ hsome⟩ }

theorem addAbsenceItems_seenFrom (u : String) (pol : List (String × String))
    (m : List (String × BreatheLeaveRequest)) :
    ∀ (absences : List BreatheAbsence) (st : BuildState),
      SeenFromItems st → SeenFromItems (addAbsenceItems u pol m absences st) := by
  intro absences
  induction absences with
  | nil => intro st h; exact h
  | cons a rest ih => intro st h; exact ih _ (absenceStep_seenFrom u pol m a st h)

theorem addLeaveRequestItems_seenFrom (u : String) :
    ∀ (lrs : List BreatheLeaveRequest) (st : BuildState),
      SeenFromItems st → SeenFromItems (addLeaveRequestItems u lrs st) := by
  intro lrs
  induction lrs with
  | nil => intro st h; exact h
  | cons lr rest ih => intro st h; exact ih _ (lrStep_seenFrom u lr st h)

theorem processEmployee_seenFrom (u : String) (pol : List (String × String))
    (d : EmployeeData) (st : BuildState) (h : SeenFromItems st) :
    SeenFromItems (processEmployee u pol d st) :=
  addLeaveRequestItems_seenFrom u _ _ (addAbsenceItems_seenFrom u pol _ d.absences st h)

theorem buildSyncItems_seenFrom (upstream : Upstream) (pol : List (String × String)) :
    ∀ (mappings : List UserMapping) (st : BuildState) (errs : Nat),
      SeenFromItems st → SeenFromItems (buildSyncItems upstream pol mappings st errs).1 := by
  intro mappings
  induction mappings with
  | nil => intro st errs h; exact h
  | cons m rest ih =>
    intro st errs h
    unfold buildSyncItems
    dsimp only
    split
    · exact ih st (errs + 1) h
    · exact ih _ errs (processEmployee_seenFrom m.flipUserId pol _ st h)

theorem addAbsenceItems_item (u : String) (pol : List (String × String))
    (m : List (String × BreatheLeaveRequest)) :
    ∀ (absences : List BreatheAbsence) (st : BuildState) (a : BreatheAbsence),
      a ∈ absences →
      ∃ it ∈ (addAbsenceItems u pol m absences st).syncItems,
        it.external_id = absExternalId m a := by
  intro absences
  induction absences with
  | nil => intro st a ha; exact absurd ha (List.not_mem_nil a)
  | cons a0 rest ih =>
    intro st a ha
    rcases List.mem_cons.mp ha with rfl | ha
    · obtain ⟨it, hsome, heid, _⟩ := mapBreathe_fields a u pol m
      have hmem : it ∈ (absenceStep u pol m a st).syncItems := by
        unfold absenceStep
        rw [hsome]
        dsimp only
        have hne : (it.external_id != "") = true := by
          rw [heid]
          simpa using absExternalId_ne_empty m a
        rw [if_pos hne]
        exact List.mem_append.mpr (Or.inr (List.mem_singleton.mpr rfl))
      exact ⟨it, addAbsenceItems_mono u pol m rest _ it hmem, heid⟩
    · exact ih _ a ha

theorem addLeaveRequestItems_item (u : String) :
    ∀ (lrs : List BreatheLeaveRequest) (st : BuildState) (lr : BreatheLeaveRequest),
      SeenFromItems st → lr ∈ lrs → sectionBStatus lr →
      truthy lr.start_date = true → truthy lr.end_date = true →
      ∃ it ∈ (addLeaveRequestItems u lrs st).syncItems,
        it.external_id = Nat.repr lr.id := by
  intro lrs
  induction lrs with
  | nil => intro st lr _ hmem; exact absurd hmem (List.not_mem_nil lr)
  | cons lr0 rest ih =>
    intro st lr hseen hmem hstat h1 h2
    rcases List.mem_cons.mp hmem with rfl | hmem
    · by_cases hc : st.seenExternalIds.contains (Nat.repr lr.id) = true
      · obtain ⟨it, hit, heq⟩ := hseen _ (by simpa using hc)
        refine ⟨it, ?_, heq⟩
        exact addLeaveRequestItems_mono u rest _ it (lrStep_mono u lr st it hit)
      · rcases hstat with hp | hr
        · obtain ⟨it, hsome, heid⟩ := mapLR_fields lr u .PENDING h1 h2
          have hstep : it ∈ (lrStep u lr st).syncItems := by
            unfold lrStep
            dsimp only
            rw [if_neg hc, if_pos (by rw [hp]; rfl), hsome]
            exact List.mem_append.mpr (Or.inr (List.mem_singleton.mpr rfl))
          exact ⟨it, addLeaveRequestItems_mono u rest _ it hstep, heid⟩
        · obtain ⟨it, hsome, heid⟩ := mapLR_fields lr u .REJECTED h1 h2
          have hnp : ((lrStatusLower lr == "pending") = true) → False := by
            intro hb
            have : lrStatusLower lr = "pending" := by simpa using hb
            rw [this] at hr
            simp [isDecidedRejected] at hr
          have hstep : it ∈ (lrStep u lr st).syncItems := by
            unfold lrStep
            dsimp only
            rw [if_neg hc, if_neg hnp, if_pos hr, hsome]
            exact List.mem_append.mpr (Or.inr (List.mem_singleton.mpr rfl))
          exact ⟨it, addLeaveRequestItems_mono u rest _ it hstep, heid⟩
    · exact ih _ lr (lrStep_seenFrom u lr0 st hseen) hmem hstat h1 h2

theorem processEmployee_covers (u : String) (pol : List (String × String))
    (d : EmployeeData) (st : BuildState) (hseen : SeenFromItems st) :
    (∀ a ∈ d.absences,
      ∃ it ∈ (processEmployee u pol d st).syncItems,
        it.external_id = absExternalId (buildLeaveRequestMap d.leaveRequests []) a)
    ∧ (∀ lr ∈ d.leaveRequests, sectionBStatus lr →
      truthy lr.start_date = true → truthy lr.end_date = true →
      ∃ it ∈ (processEmployee u pol d st).syncItems,
        it.external_id = Nat.repr lr.id) := by
  constructor
  · intro a ha
    obtain ⟨it, hit, heq⟩ := addAbsenceItems_item u pol
      (buildLeaveRequestMap d.leaveRequests []) d.absences st a ha
    exact ⟨it, addLeaveRequestItems_mono u d.leaveRequests _ it hit, heq⟩
  · intro lr hlr hstat h1 h2
    exact addLeaveRequestItems_item u d.leaveRequests _ lr
      (addAbsenceItems_seenFrom u pol _ d.absences st hseen) hlr hstat h1 h2

theorem buildSyncItems_covers (upstream : Upstream) (pol : List (String × String)) :
    ∀ (mappings : List UserMapping) (st : BuildState) (errs : Nat),
      SeenFromItems st →
      ∀ m ∈ mappings, (upstream m.breatheEmployeeId).fetchFails = false →
      (∀ a ∈ (upstream m.breatheEmployeeId).absences,
        ∃ it ∈ (buildSyncItems upstream pol mappings st errs).1.syncItems,
          it.external_id = absExternalId
            (buildLeaveRequestMap (upstream m.breatheEmployeeId).leaveRequests []) a)
      ∧ (∀ lr ∈ (upstream m.breatheEmployeeId).leaveRequests, sectionBStatus lr →
        truthy lr.start_date = true → truthy lr.end_date = true →
        ∃ it ∈ (buildSyncItems upstream pol mappings st errs).1.syncItems,
          it.external_id = Nat.repr lr.id) := by
  intro mappings
  induction mappings with
  | nil => intro st errs _ m hm; exact absurd hm (List.not_mem_nil m)
  | cons m0 rest ih =>
    intro st errs hseen m hm hff
    rcases List.mem_cons.mp hm with rfl | hm
    · unfold buildSyncItems
      dsimp only
      rw [if_neg (by rw [hff]; simp)]
      obtain ⟨hA, hB⟩ := processEmployee_covers m.flipUserId pol
        (upstream m.breatheEmployeeId) st hseen
      constructor
      · intro a ha
        obtain ⟨it, hit, heq⟩ := hA a ha
        exact ⟨it, buildSyncItems_mono upstream pol rest _ errs it hit, heq⟩
      · intro lr hlr hstat h1 h2
        obtain ⟨it, hit, heq⟩ := hB lr hlr hstat h1 h2
        exact ⟨it, buildSyncItems_mono upstream pol rest _ errs it hit, heq⟩
    · unfold buildSyncItems
      dsimp only
      split
      · exact ih st (errs + 1) hseen m hm hff
      · exact ih _ errs (processEmployee_seenFrom m0.flipUserId pol _ st hseen) m hm hff

theorem chunkFuel_join : ∀ (fuel : Nat) (l : List FlipSyncAbsenceRequest),
    l.length ≤ fuel → (chunkFuel fuel l).flatten = l := by
  intro fuel
  induction fuel with
  | zero =>
    intro l hl
    have : l = [] := List.eq_nil_of_length_eq_zero (Nat.le_zero.mp hl)
    subst this
    rfl
  | succ f ih =>
    intro l hl
    cases l with
    | nil => rfl
    | cons x xs =>
      show ((x :: xs).take 100 ++ (chunkFuel f ((x :: xs).drop 100)).flatten) = x :: xs
      rw [ih ((x :: xs).drop 100) (by
        simp only [List.length_drop, List.length_cons]
        simp only [List.length_cons] at hl
        omega)]
      exact List.take_append_drop 100 (x :: xs)

theorem chunk100_join (l : List FlipSyncAbsenceRequest) : (chunk100 l).flatten = l :=
  chunkFuel_join l.length l le_rfl

theorem pushLoop_none_trace (syncId : String) :
    ∀ (bs : List (List FlipSyncAbsenceRequest)) (k : Nat),
      (pushLoop syncId none bs k).1 = bs.map (FlipCall.pushBatch syncId) := by
  intro bs
  induction bs with
  | nil => intro k; rfl
  | cons b rest ih =>
    intro k
    simp only [pushLoop, List.map_cons]
    rw [if_neg (by simp)]
    simp [ih (k + 1)]

theorem pushedBatches_append : ∀ (a b : List FlipCall),
    pushedBatches (a ++ b) = pushedBatches a ++ pushedBatches b := by
  intro a
  induction a with
  | nil => intro b; rfl
  | cons c rest ih =>
    intro b
    cases c <;> simp [pushedBatches, ih b]

theorem pushedBatches_nil_of_noSession (tr : List FlipCall)
    (h : ∀ c ∈ tr, isSessionCall c = false) : pushedBatches tr = [] := by
  induction tr with
  | nil => rfl
  | cons c rest ih =>
    have hc := h c (List.mem_cons_self c rest)
    have hrest := ih (fun c hm => h c (List.mem_cons_of_mem _ hm))
    cases c <;> simp_all [pushedBatches, isSessionCall]

theorem pushedBatches_map (syncId : String) :
    ∀ (bs : List (List FlipSyncAbsenceRequest)),
      pushedBatches (bs.map (FlipCall.pushBatch syncId)) = bs := by
  intro bs
  induction bs with
  | nil => rfl
  | cons b rest ih => simp [pushedBatches, ih]

theorem runFullSync_noFail_eq (mappings : List UserMapping) (upstream : Upstream)
    (pol : List (String × String)) (store0 : FlipStore) :
    runFullSync mappings upstream pol store0 {} =
      { outcome := .ok,
        trace := (notifyItems (buildSyncItems upstream pol mappings {} 0).1.syncItems
            { store := store0, trace := [], notifApproved := 0, notifRejected := 0 }).trace
          ++ [FlipCall.startSync]
          ++ ((chunk100 (buildSyncItems upstream pol mappings {} 0).1.syncItems).map
              (FlipCall.pushBatch "sync-1"))
          ++ [FlipCall.completeSync "sync-1"],
        store := flipReplaceAll (buildSyncItems upstream pol mappings {} 0).1.syncItems,
        syncItems := (buildSyncItems upstream pol mappings {} 0).1.syncItems,
        notifApproved := (notifyItems (buildSyncItems upstream pol mappings {} 0).1.syncItems
            { store := store0, trace := [], notifApproved := 0, notifRejected := 0 }).notifApproved,
        notifRejected := (notifyItems (buildSyncItems upstream pol mappings {} 0).1.syncItems
            { store := store0, trace := [], notifApproved := 0, notifRejected := 0 }).notifRejected,
        errorCount := (buildSyncItems upstream pol mappings {} 0).2 } := by
  unfold runFullSync
  simp only [show (({} : SessionFailures)).startFails = false from rfl,
    show (({} : SessionFailures)).pushFailsAt = none from rfl,
    show (({} : SessionFailures)).completeFails = false from rfl,
    pushLoop_none_ok, pushLoop_none_trace, Bool.false_eq_true, if_false,
    Bool.not_true]

theorem runFullSync_noFail_pushed (mappings : List UserMapping) (upstream : Upstream)
    (pol : List (String × String)) (store0 : FlipStore) :
    (pushedBatches (runFullSync mappings upstream pol store0 {}).trace).flatten
      = (runFullSync mappings upstream pol store0 {}).syncItems := by
  rw [runFullSync_noFail_eq]
  obtain ⟨ext, hext, hsess⟩ := notifyItems_trace
    (buildSyncItems upstream pol mappings {} 0).1.syncItems
    { store := store0, trace := [], notifApproved := 0, notifRejected := 0 }
  have hnil : pushedBatches (notifyItems (buildSyncItems upstream pol mappings {} 0).1.syncItems
      { store := store0, trace := [], notifApproved := 0, notifRejected := 0 }).trace = [] := by
    apply pushedBatches_nil_of_noSession
    intro c hc
    rw [hext] at hc
    exact hsess c (by simpa using hc)
  simp only [pushedBatches_append, hnil, pushedBatches_map]
  simp only [pushedBatches, List.nil_append, List.append_nil]
  exact chunk100_join _

/-- Claim C3 (amended): for every mapped employee whose upstream fetch
succeeds, every absence and every PENDING or rejected leave request with
truthy start and end dates yields an item in the built item set, which is
exactly the set pushed (in batches) to the completed sync session. -/
theorem claim_C3_amended (mappings : List UserMapping) (upstream : Upstream)
    (pol : List (String × String)) (store0 : FlipStore) (m : UserMapping)
    (hm : m ∈ mappings) (hf : (upstream m.breatheEmployeeId).fetchFails = false) :
    (∀ a ∈ (upstream m.breatheEmployeeId).absences,
      ∃ it ∈ (runFullSync mappings upstream pol store0 {}).syncItems,
        it.external_id = absExternalId
          (buildLeaveRequestMap (upstream m.breatheEmployeeId).leaveRequests []) a)
    ∧ (∀ lr ∈ (upstream m.breatheEmployeeId).leaveRequests, sectionBStatus lr →
      truthy lr.start_date = true → truthy lr.end_date = true →
      ∃ it ∈ (runFullSync mappings upstream pol store0 {}).syncItems,
        it.external_id = Nat.repr lr.id)
    ∧ (runFullSync mappings upstream pol store0 {}).outcome = .ok
    ∧ (pushedBatches (runFullSync mappings upstream pol store0 {}).trace).flatten
        = (runFullSync mappings upstream pol store0 {}).syncItems := by
  have hcov := buildSyncItems_covers upstream pol mappings {} 0
    (fun e he => absurd he (List.not_mem_nil e)) m hm hf
  have hitems := runFullSync_syncItems_eq mappings upstream pol store0 {}
  refine ⟨?_, ?_, runFullSync_noFailures_ok mappings upstream pol store0,
    runFullSync_noFail_pushed mappings upstream pol store0⟩
  · intro a ha
    rw [hitems]
    exact hcov.1 a ha
  · intro lr hlr hstat h1 h2
    rw [hitems]
    exact hcov.2 lr hlr hstat h1 h2

/-- Claim C3 counterexample: a PENDING leave request with a missing end date
is silently dropped — the run completes ok but the pushed item set is empty,
so the claim that every such record yields a pushed item is false. -/
theorem claim_C3_counterexample :
    (runFullSync [c3Mapping] c3BadUpstream [] [] {}).syncItems = []
    ∧ (runFullSync [c3Mapping] c3BadUpstream [] [] {}).outcome = .ok
    ∧ lrStatusLower ((c3BadUpstream 1).leaveRequests.get ⟨0, by decide⟩) = "pending" := by
  decide

/-- Claim C3 witness: the amended completeness statement evaluated on one
employee with one absence and one well-formed pending leave request. -/
theorem claim_C3_witness :
    ((c3GoodUpstream 2).fetchFails = false ∧ sectionBStatus c3GoodLr)
    ∧ (∃ it ∈ (runFullSync [c3GoodMapping] c3GoodUpstream [] [] {}).syncItems,
        it.external_id = Nat.repr c3GoodLr.id) :=
  ⟨⟨by decide, Or.inl (by decide)⟩,
    (claim_C3_amended [c3GoodMapping] c3GoodUpstream [] [] c3GoodMapping
      (List.mem_singleton.mpr rfl) (by decide)).2.1 c3GoodLr
      (List.mem_singleton.mpr rfl) (Or.inl (by decide)) (by decide) (by decide)⟩

theorem mapGet_mapSet (m : List (String × α)) (k : String) (v : α) (k' : String) :
    mapGet (mapSet m k v) k' = if k == k' then some v else mapGet m k' := by
  unfold mapGet mapSet
  by_cases hkk : (k == k') = true
  · rw [List.find?_cons]
    simp [hkk]
  · rw [List.find?_cons]
    have hfst : ((k, v).1 == k') = false := by simpa using hkk
    simp [hfst, hkk]

theorem buildLRMap_get_none :
    ∀ (rs : List BreatheLeaveRequest) (m0 : List (String × BreatheLeaveRequest)) (k : String),
      (∀ lr ∈ rs, lrDateKey lr ≠ k) → mapGet m0 k = none →
      mapGet (buildLeaveRequestMap rs m0) k = none := by
  intro rs
  induction rs with
  | nil => intro m0 k _ h0; exact h0
  | cons lr rest ih =>
    intro m0 k hne h0
    unfold buildLeaveRequestMap
    split
    · refine ih _ k (fun lr2 h2 => hne lr2 (List.mem_cons_of_mem lr h2)) ?_
      rw [mapGet_mapSet]
      rw [if_neg (by simpa using hne lr (List.mem_cons_self lr rest))]
      exact h0
    · exact ih _ k (fun lr2 h2 => hne lr2 (List.mem_cons_of_mem lr h2)) h0

theorem absenceStep_eq (u : String) (pol : List (String × String))
    (m : List (String × BreatheLeaveRequest)) (a : BreatheAbsence) (st : BuildState) :
    ∃ it, absenceStep u pol m a st =
        { syncItems := st.syncItems ++ [it],
          seenExternalIds := st.seenExternalIds ++ [it.external_id] }
      ∧ it.external_id = absExternalId m a
      ∧ it.status = (if absenceIsCancelled a then AbsenceRequestStatus.CANCELLED
          else AbsenceRequestStatus.APPROVED) := by
  obtain ⟨it, hsome, heid, hstat⟩ := mapBreathe_fields a u pol m
  refine ⟨it, ?_, heid, hstat⟩
  unfold absenceStep
  rw [hsome]
  dsimp only
  rw [if_pos (by rw [heid]; simpa using absExternalId_ne_empty m a)]

theorem lrStep_nonqual (u : String) (lr : BreatheLeaveRequest) (st : BuildState)
    (h : sectionBStatusB lr = false) : lrStep u lr st = st := by
  unfold sectionBStatusB at h
  obtain ⟨h1, h2⟩ := Bool.or_eq_false_iff.mp h
  unfold lrStep
  dsimp only
  by_cases hc : st.seenExternalIds.contains (Nat.repr lr.id) = true
  · rw [if_pos hc]
  · rw [if_neg hc, if_neg (by rw [h1]; simp), if_neg (by rw [h2]; simp)]

theorem lrStep_qual (u : String) (lr : BreatheLeaveRequest) (st : BuildState)
    (hB : sectionBStatusB lr = true)
    (h1 : truthy lr.start_date = true) (h2 : truthy lr.end_date = true)
    (hns : st.seenExternalIds.contains (Nat.repr lr.id) = false) :
    ∃ it, lrStep u lr st =
        { syncItems := st.syncItems ++ [it],
          seenExternalIds := st.seenExternalIds ++ [Nat.repr lr.id] }
      ∧ it.external_id = Nat.repr lr.id := by
  by_cases hp : (lrStatusLower lr == "pending") = true
  · obtain ⟨it, hsome, heid⟩ := mapLR_fields lr u .PENDING h1 h2
    refine ⟨it, ?_, heid⟩
    unfold lrStep
    dsimp only
    rw [if_neg (by rw [hns]; simp), if_pos hp, hsome]
  · have hr : isDecidedRejected (lrStatusLower lr) = true := by
      unfold sectionBStatusB at hB
      rcases Bool.or_eq_true_iff.mp hB with h | h
      · exact absurd h hp
      · exact h
    obtain ⟨it, hsome, heid⟩ := mapLR_fields lr u .REJECTED h1 h2
    refine ⟨it, ?_, heid⟩
    unfold lrStep
    dsimp only
    rw [if_neg (by rw [hns]; simp), if_neg hp, if_pos hr, hsome]

theorem addAbsenceItems_countEid (u : String) (pol : List (String × String))
    (m : List (String × BreatheLeaveRequest)) :
    ∀ (absences : List BreatheAbsence) (st : BuildState) (e : String),
      countEid (addAbsenceItems u pol m absences st).syncItems e
        = countEid st.syncItems e
          + absences.countP (fun a => absExternalId m a == e) := by
  intro absences
  induction absences with
  | nil => intro st e; simp [addAbsenceItems]
  | cons a rest ih =>
    intro st e
    obtain ⟨it, hstep, heid, _⟩ := absenceStep_eq u pol m a st
    show countEid (addAbsenceItems u pol m rest (absenceStep u pol m a st)).syncItems e = _
    rw [ih _ e, hstep]
    unfold countEid
    simp only [List.countP_append, List.countP_cons, List.countP_nil, heid]
    omega

theorem addAbsenceItems_length (u : String) (pol : List (String × String))
    (m : List (String × BreatheLeaveRequest)) :
    ∀ (absences : List BreatheAbsence) (st : BuildState),
      (addAbsenceItems u pol m absences st).syncItems.length
        = st.syncItems.length + absences.length := by
  intro absences
  induction absences with
  | nil => intro st; simp [addAbsenceItems]
  | cons a rest ih =>
    intro st
    obtain ⟨it, hstep, _, _⟩ := absenceStep_eq u pol m a st
    show (addAbsenceItems u pol m rest (absenceStep u pol m a st)).syncItems.length = _
    rw [ih _, hstep]
    simp only [List.length_append, List.length_cons, List.length_nil]
    omega

theorem addAbsenceItems_seen (u : String) (pol : List (String × String))
    (m : List (String × BreatheLeaveRequest)) :
    ∀ (absences : List BreatheAbsence) (st : BuildState),
      (addAbsenceItems u pol m absences st).seenExternalIds
        = st.seenExternalIds ++ absences.map (fun a => absExternalId m a) := by
  intro absences
  induction absences with
  | nil => intro st; simp [addAbsenceItems]
  | cons a rest ih =>
    intro st
    obtain ⟨it, hstep, heid, _⟩ := absenceStep_eq u pol m a st
    show (addAbsenceItems u pol m rest (absenceStep u pol m a st)).seenExternalIds = _
    rw [ih _, hstep]
    simp [heid]

theorem addLeaveRequestItems_chars (u : String) :
    ∀ (lrs : List BreatheLeaveRequest) (st : BuildState),
      (∀ lr ∈ lrs, truthy lr.start_date = true ∧ truthy lr.end_date = true) →
      (lrs.map (fun lr => Nat.repr lr.id)).Nodup →
      (∀ lr ∈ lrs, sectionBStatusB lr = true → Nat.repr lr.id ∉ st.seenExternalIds) →
      (∀ e, countEid (addLeaveRequestItems u lrs st).syncItems e
        = countEid st.syncItems e
          + lrs.countP (fun lr => sectionBStatusB lr && (Nat.repr lr.id == e)))
      ∧ (addLeaveRequestItems u lrs st).syncItems.length
        = st.syncItems.length + lrs.countP sectionBStatusB := by
  intro lrs
  induction lrs with
  | nil => intro st _ _ _; constructor <;> simp [addLeaveRequestItems]
  | cons lr0 rest ih =>
    intro st hdates hnodup hseen
    by_cases hB : sectionBStatusB lr0 = true
    · have hc : st.seenExternalIds.contains (Nat.repr lr0.id) = false := by
        simpa using hseen lr0 (List.mem_cons_self lr0 rest) hB
      obtain ⟨hd1, hd2⟩ := hdates lr0 (List.mem_cons_self lr0 rest)
      obtain ⟨it, hstep, heid⟩ := lrStep_qual u lr0 st hB hd1 hd2 hc
      have hnodup' : (rest.map (fun lr => Nat.repr lr.id)).Nodup :=
        (List.nodup_cons.mp (by simpa using hnodup)).2
      have hhead : Nat.repr lr0.id ∉ rest.map (fun lr => Nat.repr lr.id) :=
        (List.nodup_cons.mp (by simpa using hnodup)).1
      have hseen' : ∀ lr ∈ rest, sectionBStatusB lr = true →
          Nat.repr lr.id ∉ (lrStep u lr0 st).seenExternalIds := by
        intro lr hm hq
        rw [hstep]
        intro hmem
        rcases List.mem_append.mp hmem with hmem | hmem
        · exact hseen lr (List.mem_cons_of_mem lr0 hm) hq hmem
        · rw [List.mem_singleton] at hmem
          exact hhead (hmem ▸ List.mem_map_of_mem (fun lr => Nat.repr lr.id) hm)
      obtain ⟨ihc, ihl⟩ := ih (lrStep u lr0 st)
        (fun lr hm => hdates lr (List.mem_cons_of_mem lr0 hm)) hnodup' hseen'
      constructor
      · intro e
        show countEid (addLeaveRequestItems u rest (lrStep u lr0 st)).syncItems e = _
        rw [ihc e, hstep]
        unfold countEid
        simp [List.countP_append, List.countP_cons, heid, hB]
        omega
      · show (addLeaveRequestItems u rest (lrStep u lr0 st)).syncItems.length = _
        rw [ihl, hstep]
        simp [List.countP_cons, hB]
        omega
    · have hB' : sectionBStatusB lr0 = false := by
        cases h : sectionBStatusB lr0
        · rfl
        · exact absurd h hB
      have hstep := lrStep_nonqual u lr0 st hB'
      obtain ⟨ihc, ihl⟩ := ih (lrStep u lr0 st)
        (fun lr hm => hdates lr (List.mem_cons_of_mem lr0 hm))
        (List.nodup_cons.mp (by simpa using hnodup)).2
        (fun lr hm hq => by rw [hstep]; exact hseen lr (List.mem_cons_of_mem lr0 hm) hq)
      constructor
      · intro e
        show countEid (addLeaveRequestItems u rest (lrStep u lr0 st)).syncItems e = _
        rw [ihc e, hstep]
        simp [List.countP_cons, hB']
      · show (addLeaveRequestItems u rest (lrStep u lr0 st)).syncItems.length = _
        rw [ihl, hstep]
        simp [List.countP_cons, hB']

/-- Claim C6 (amended): for one employee input set in which all leave
requests carry truthy dates, no two entries share a date key, and no two
entries share an external id string, the unification pass emits exactly one
sync item per absence and per PENDING/rejected leave request (one item per
distinct date pair), and nothing else. An approved leave request with no
matching absence emits nothing. -/
theorem claim_C6_amended (u : String) (pol : List (String × String)) (d : EmployeeData)
    (hdates : ∀ lr ∈ d.leaveRequests, truthy lr.start_date = true ∧ truthy lr.end_date = true)
    (hkeys : ((d.absences.map absenceDateKey) ++ (d.leaveRequests.map lrDateKey)).Nodup)
    (hids : ((d.absences.map (fun a => Nat.repr a.id))
        ++ (d.leaveRequests.map (fun lr => Nat.repr lr.id))).Nodup) :
    (∀ a ∈ d.absences,
      countEid (unifyEmployee u pol d).syncItems (Nat.repr a.id) = 1)
    ∧ (∀ lr ∈ d.leaveRequests, sectionBStatusB lr = true →
      countEid (unifyEmployee u pol d).syncItems (Nat.repr lr.id) = 1)
    ∧ (unifyEmployee u pol d).syncItems.length
        = d.absences.length + d.leaveRequests.countP sectionBStatusB := by
  have hdisjKeys := (List.nodup_append.mp hkeys).2.2
  have hidsA := (List.nodup_append.mp hids).1
  have hidsR := (List.nodup_append.mp hids).2.1
  have hdisjIds := (List.nodup_append.mp hids).2.2
  have hnomatch : ∀ a ∈ d.absences,
      mapGet (buildLeaveRequestMap d.leaveRequests []) (absenceDateKey a) = none := by
    intro a ha
    apply buildLRMap_get_none
    · intro lr hlr hkeq
      exact hdisjKeys (List.mem_map_of_mem absenceDateKey ha)
        (hkeq ▸ List.mem_map_of_mem lrDateKey hlr)
    · rfl
  have habsEid : ∀ a ∈ d.absences,
      absExternalId (buildLeaveRequestMap d.leaveRequests []) a = Nat.repr a.id := by
    intro a ha
    unfold absExternalId
    rw [hnomatch a ha]
  have hseen1 : (addAbsenceItems u pol (buildLeaveRequestMap d.leaveRequests [])
      d.absences {}).seenExternalIds
      = d.absences.map (fun a => absExternalId (buildLeaveRequestMap d.leaveRequests []) a) := by
    rw [addAbsenceItems_seen]
    rfl
  have hseenOK : ∀ lr ∈ d.leaveRequests, sectionBStatusB lr = true →
      Nat.repr lr.id ∉ (addAbsenceItems u pol (buildLeaveRequestMap d.leaveRequests [])
        d.absences {}).seenExternalIds := by
    intro lr hlr _ hmem
    rw [hseen1] at hmem
    obtain ⟨a, ha, heq⟩ := List.mem_map.mp hmem
    rw [habsEid a ha] at heq
    exact hdisjIds (List.mem_map_of_mem (fun a => Nat.repr a.id) ha)
      (heq ▸ List.mem_map_of_mem (fun lr => Nat.repr lr.id) hlr)
  obtain ⟨hcount, hlen⟩ := addLeaveRequestItems_chars u d.leaveRequests
    (addAbsenceItems u pol (buildLeaveRequestMap d.leaveRequests []) d.absences {})
    hdates hidsR hseenOK
  have hmapcount : ∀ (e : String),
      d.absences.countP (fun a =>
        absExternalId (buildLeaveRequestMap d.leaveRequests []) a == e)
      = (d.absences.map (fun a => Nat.repr a.id)).count e := by
    intro e
    have h1 : d.absences.countP (fun a =>
        absExternalId (buildLeaveRequestMap d.leaveRequests []) a == e)
        = d.absences.countP (fun a => Nat.repr a.id == e) := by
      apply List.countP_congr
      intro a ha
      rw [habsEid a ha]
    rw [h1]
    rw [show (List.count e (d.absences.map (fun a => Nat.repr a.id)))
      = (d.absences.map (fun a => Nat.repr a.id)).countP (fun x => x == e) from rfl]
    rw [List.countP_map]
    rfl
  refine ⟨?_, ?_, ?_⟩
  · intro a0 ha0
    show countEid (addLeaveRequestItems u d.leaveRequests
      (addAbsenceItems u pol (buildLeaveRequestMap d.leaveRequests [])
        d.absences {})).syncItems (Nat.repr a0.id) = 1
    rw [hcount, addAbsenceItems_countEid, hmapcount]
    have hA : (d.absences.map (fun a => Nat.repr a.id)).count (Nat.repr a0.id) = 1 :=
      List.count_eq_one_of_mem hidsA (List.mem_map_of_mem (fun a => Nat.repr a.id) ha0)
    have hB : d.leaveRequests.countP
        (fun lr => sectionBStatusB lr && (Nat.repr lr.id == Nat.repr a0.id)) = 0 := by
      rw [List.countP_eq_zero]
      intro lr hlr hcontra
      have hbe : (Nat.repr lr.id == Nat.repr a0.id) = true :=
        (Bool.and_eq_true_iff.mp hcontra).2
      have heq : Nat.repr lr.id = Nat.repr a0.id := by simpa using hbe
      exact hdisjIds (List.mem_map_of_mem (fun a => Nat.repr a.id) ha0)
        (heq ▸ List.mem_map_of_mem (fun lr => Nat.repr lr.id) hlr)
    rw [hA, hB]
    simp [countEid]
  · intro lr0 hlr0 hq
    show countEid (addLeaveRequestItems u d.leaveRequests
      (addAbsenceItems u pol (buildLeaveRequestMap d.leaveRequests [])
        d.absences {})).syncItems (Nat.repr lr0.id) = 1
    rw [hcount, addAbsenceItems_countEid, hmapcount]
    have hA : (d.absences.map (fun a => Nat.repr a.id)).count (Nat.repr lr0.id) = 0 := by
      apply List.count_eq_zero_of_not_mem
      intro hmem
      exact hdisjIds hmem (List.mem_map_of_mem (fun lr => Nat.repr lr.id) hlr0)
    have hB : d.leaveRequests.countP
        (fun lr => sectionBStatusB lr && (Nat.repr lr.id == Nat.repr lr0.id))
        = d.leaveRequests.countP (fun lr => Nat.repr lr.id == Nat.repr lr0.id) := by
      apply List.countP_congr
      intro lr hlr
      constructor
      · intro h
        exact (Bool.and_eq_true_iff.mp h).2
      · intro h
        have heq : Nat.repr lr.id = Nat.repr lr0.id := by simpa using h
        have : lr = lr0 := List.inj_on_of_nodup_map hidsR hlr hlr0 heq
        subst this
        rw [hq, h]
        rfl
    have hC : d.leaveRequests.countP (fun lr => Nat.repr lr.id == Nat.repr lr0.id) = 1 := by
      have h1 : (d.leaveRequests.map (fun lr => Nat.repr lr.id)).count (Nat.repr lr0.id) = 1 :=
        List.count_eq_one_of_mem hidsR (List.mem_map_of_mem (fun lr => Nat.repr lr.id) hlr0)
      rw [show (List.count (Nat.repr lr0.id) (d.leaveRequests.map (fun lr => Nat.repr lr.id)))
        = (d.leaveRequests.map (fun lr => Nat.repr lr.id)).countP
            (fun x => x == Nat.repr lr0.id) from rfl] at h1
      rw [List.countP_map] at h1
      exact h1
    rw [hA, hB, hC]
    simp [countEid]
  · show (addLeaveRequestItems u d.leaveRequests
      (addAbsenceItems u pol (buildLeaveRequestMap d.leaveRequests [])
        d.absences {})).syncItems.length = _
    rw [hlen, addAbsenceItems_length]
    simp

/-- Claim C6 counterexample: an input set holding a single approved leave
request with no matching absence has one distinct date pair, yet unification
emits zero sync items — approved requests without an absence are dropped. -/
theorem claim_C6_counterexample :
    (unifyEmployee "user-6" [] c6Data).syncItems = []
    ∧ c6Data.leaveRequests.length = 1
    ∧ truthy c6ApprovedLr.start_date = true
    ∧ truthy c6ApprovedLr.end_date = true := by decide

/-- Claim C6 witness: the amended uniqueness statement evaluated on one
absence and one pending request with distinct date pairs and ids. -/
theorem claim_C6_witness :
    (sectionBStatusB c6WLr = true)
    ∧ countEid (unifyEmployee "user-6" [] c6WData).syncItems (Nat.repr c6WAbsence.id) = 1
    ∧ countEid (unifyEmployee "user-6" [] c6WData).syncItems (Nat.repr c6WLr.id) = 1 :=
  ⟨by decide,
   (claim_C6_amended "user-6" [] c6WData (by decide) (by decide) (by decide)).1
     c6WAbsence (by decide),
   (claim_C6_amended "user-6" [] c6WData (by decide) (by decide) (by decide)).2.1
     c6WLr (by decide) (by decide)⟩

theorem replaceAll_get (items : List FlipSyncAbsenceRequest) (k : String) :
    mapGet (flipReplaceAll items) k = lastItemStatus items k := by
  unfold mapGet flipReplaceAll lastItemStatus
  rw [List.find?_map]
  rw [Option.map_map]
  rfl

theorem lastItemStatus_append (items : List FlipSyncAbsenceRequest)
    (x : FlipSyncAbsenceRequest) (k : String) :
    lastItemStatus (items ++ [x]) k
      = if x.external_id == k then some x.status else lastItemStatus items k := by
  unfold lastItemStatus
  rw [List.reverse_append]
  simp only [List.reverse_singleton, List.singleton_append, List.find?_cons]
  by_cases hx : (x.external_id == k) = true
  · simp [hx]
  · have hx' : (x.external_id == k) = false := by
      cases h : (x.external_id == k)
      · rfl
      · exact absurd h hx
    simp [hx']

theorem noPendingShadow_append_nonpending (items : List FlipSyncAbsenceRequest)
    (x : FlipSyncAbsenceRequest) (hx : x.status ≠ .PENDING)
    (h : NoPendingShadow items) : NoPendingShadow (items ++ [x]) := by
  intro it hit hdec
  rw [lastItemStatus_append]
  by_cases hk : (x.external_id == it.external_id) = true
  · rw [if_pos hk]
    intro hcontra
    exact hx (by injection hcontra)
  · rw [if_neg hk]
    rcases List.mem_append.mp hit with hit | hit
    · exact h it hit hdec
    · rw [List.mem_singleton] at hit
      subst hit
      exact absurd (by simp : (it.external_id == it.external_id) = true) hk

theorem noPendingShadow_append_pending (items : List FlipSyncAbsenceRequest)
    (seen : List String) (x : FlipSyncAbsenceRequest)
    (hcov : ∀ it ∈ items, it.external_id ∈ seen)
    (hnotseen : x.external_id ∉ seen)
    (h : NoPendingShadow items) : NoPendingShadow (items ++ [x]) := by
  intro it hit hdec
  rcases List.mem_append.mp hit with hit | hit
  · rw [lastItemStatus_append]
    have hk : (x.external_id == it.external_id) = false := by
      cases hb : (x.external_id == it.external_id)
      · rfl
      · have : x.external_id = it.external_id := by simpa using hb
        exact absurd (this ▸ hcov it hit) hnotseen
    rw [if_neg (by rw [hk]; simp)]
    exact h it hit hdec
  · rw [List.mem_singleton] at hit
    subst hit
    rw [lastItemStatus_append, if_pos (by simp)]
    intro hcontra
    have hx : it.status = .PENDING := by injection hcontra
    rcases hdec with hd | hd <;> rw [hd] at hx <;> exact absurd hx (by simp)

theorem mapLR_status_of_some (lr : BreatheLeaveRequest) (u : String)
    (s : AbsenceRequestStatus) (it : FlipSyncAbsenceRequest)
    (h : mapLeaveRequestToFlipSync lr u s = some it) : it.status = s := by
  unfold mapLeaveRequestToFlipSync at h
  split at h
  · exact absurd h (by simp)
  · cases h
    rfl

theorem lrStep_shape (u : String) (lr : BreatheLeaveRequest) (st : BuildState) :
    lrStep u lr st = st
    ∨ (st.seenExternalIds.contains (Nat.repr lr.id) = false
      ∧ ∃ it, lrStep u lr st =
          { syncItems := st.syncItems ++ [it],
            seenExternalIds := st.seenExternalIds ++ [Nat.repr lr.id] }
        ∧ it.external_id = Nat.repr lr.id
        ∧ (it.status = .PENDING ∨ it.status = .REJECTED)) := by
  unfold lrStep
  dsimp only
  by_cases hc : st.seenExternalIds.contains (Nat.repr lr.id) = true
  · left
    rw [if_pos hc]
  · have hc' : st.seenExternalIds.contains (Nat.repr lr.id) = false := by
      cases h : st.seenExternalIds.contains (Nat.repr lr.id)
      · rfl
      · exact absurd h hc
    rw [if_neg hc]
    by_cases hp : (lrStatusLower lr == "pending") = true
    · rw [if_pos hp]
      cases hm : mapLeaveRequestToFlipSync lr u .PENDING with
      | none => left; rfl
      | some it =>
        right
        exact ⟨hc', it, rfl, mapLR_eid_of_some lr u _ it hm,
          Or.inl (mapLR_status_of_some lr u _ it hm)⟩
    · rw [if_neg hp]
      by_cases hr : isDecidedRejected (lrStatusLower lr) = true
      · rw [if_pos hr]
        cases hm : mapLeaveRequestToFlipSync lr u .REJECTED with
        | none => left; rfl
        | some it =>
          right
          exact ⟨hc', it, rfl, mapLR_eid_of_some lr u _ it hm,
            Or.inr (mapLR_status_of_some lr u _ it hm)⟩
      · rw [if_neg hr]
        left
        rfl

theorem absenceStep_inv (u : String) (pol : List (String × String))
    (m : List (String × BreatheLeaveRequest)) (a : BreatheAbsence) (st : BuildState)
    (hcov : SeenCovers st) (hnps : NoPendingShadow st.syncItems) :
    SeenCovers (absenceStep u pol m a st)
    ∧ NoPendingShadow (absenceStep u pol m a st).syncItems := by
  obtain ⟨it, hstep, heid, hstat⟩ := absenceStep_eq u pol m a st
  rw [hstep]
  constructor
  · intro it2 hit2
    dsimp only at hit2 ⊢
    rcases List.mem_append.mp hit2 with h2 | h2
    · exact List.mem_append.mpr (Or.inl (hcov it2 h2))
    · rw [List.mem_singleton] at h2
      subst h2
      exact List.mem_append.mpr (Or.inr (List.mem_singleton.mpr rfl))
  · dsimp only
    apply noPendingShadow_append_nonpending _ it _ hnps
    rw [hstat]
    by_cases hcanc : absenceIsCancelled a = true
    · rw [if_pos hcanc]; simp
    · rw [if_neg hcanc]; simp

theorem lrStep_inv (u : String) (lr : BreatheLeaveRequest) (st : BuildState)
    (hcov : SeenCovers st) (hnps : NoPendingShadow st.syncItems) :
    SeenCovers (lrStep u lr st) ∧ NoPendingShadow (lrStep u lr st).syncItems := by
  rcases lrStep_shape u lr st with heq | ⟨hc, it, heq, heid, hstat⟩
  · rw [heq]
    exact ⟨hcov, hnps⟩
  · rw [heq]
    constructor
    · intro it2 hit2
      dsimp only at hit2 ⊢
      rcases List.mem_append.mp hit2 with h2 | h2
      · exact List.mem_append.mpr (Or.inl (hcov it2 h2))
      · rw [List.mem_singleton] at h2
        subst h2
        rw [heid]
        exact List.mem_append.mpr (Or.inr (List.mem_singleton.mpr rfl))
    · dsimp only
      rcases hstat with hs | hs
      · apply noPendingShadow_append_pending _ st.seenExternalIds it hcov _ hnps
        rw [heid]
        simpa using hc
      · exact noPendingShadow_append_nonpending _ it (by rw [hs]; simp) hnps

theorem addAbsenceItems_inv (u : String) (pol : List (String × String))
    (m : List (String × BreatheLeaveRequest)) :
    ∀ (absences : List BreatheAbsence) (st : BuildState),
      SeenCovers st → NoPendingShadow st.syncItems →
      SeenCovers (addAbsenceItems u pol m absences st)
      ∧ NoPendingShadow (addAbsenceItems u pol m absences st).syncItems := by
  intro absences
  induction absences with
  | nil => intro st h1 h2; exact ⟨h1, h2⟩
  | cons a rest ih =>
    intro st h1 h2
    obtain ⟨h1', h2'⟩ := absenceStep_inv u pol m a st h1 h2
    exact ih _ h1' h2'

theorem addLeaveRequestItems_inv (u : String) :
    ∀ (lrs : List BreatheLeaveRequest) (st : BuildState),
      SeenCovers st → NoPendingShadow st.syncItems →
      SeenCovers (addLeaveRequestItems u lrs st)
      ∧ NoPendingShadow (addLeaveRequestItems u lrs st).syncItems := by
  intro lrs
  induction lrs with
  | nil => intro st h1 h2; exact ⟨h1, h2⟩
  | cons lr rest ih =>
    intro st h1 h2
    obtain ⟨h1', h2'⟩ := lrStep_inv u lr st h1 h2
    exact ih _ h1' h2'

theorem buildSyncItems_inv (upstream : Upstream) (pol : List (String × String)) :
    ∀ (mappings : List UserMapping) (st : BuildState) (errs : Nat),
      SeenCovers st → NoPendingShadow st.syncItems →
      NoPendingShadow (buildSyncItems upstream pol mappings st errs).1.syncItems := by
  intro mappings
  induction mappings with
  | nil => intro st errs _ h2; exact h2
  | cons m rest ih =>
    intro st errs h1 h2
    unfold buildSyncItems
    dsimp only
    split
    · exact ih st (errs + 1) h1 h2
    · unfold processEmployee
      obtain ⟨hA1, hA2⟩ := addAbsenceItems_inv m.flipUserId pol _ _ st h1 h2
      obtain ⟨hB1, hB2⟩ := addLeaveRequestItems_inv m.flipUserId _ _ hA1 hA2
      exact ih _ errs hB1 hB2

theorem notifyStep_noop (item : FlipSyncAbsenceRequest) (ns : NotifState)
    (h : (item.status = .APPROVED ∨ item.status = .REJECTED) →
      mapGet ns.store item.external_id ≠ some .PENDING) :
    (notifyStep item ns).store = ns.store
    ∧ (notifyStep item ns).notifApproved = ns.notifApproved
    ∧ (notifyStep item ns).notifRejected = ns.notifRejected
    ∧ countDecision (notifyStep item ns).trace = countDecision ns.trace := by
  unfold notifyStep
  by_cases h1 : (item.external_id == "") = true
  · rw [if_pos h1]
    exact ⟨rfl, rfl, rfl, rfl⟩
  · rw [if_neg h1]
    by_cases h2 : (item.status != .APPROVED && item.status != .REJECTED) = true
    · rw [if_pos h2]
      exact ⟨rfl, rfl, rfl, rfl⟩
    · rw [if_neg h2]
      dsimp only
      have hdec : item.status = .APPROVED ∨ item.status = .REJECTED := by
        cases hs : item.status
        · rw [hs] at h2; simp at h2
        · exact Or.inl rfl
        · exact Or.inr rfl
        · rw [hs] at h2; simp at h2
      have hnp := h hdec
      cases hget : mapGet ns.store item.external_id with
      | none =>
        refine ⟨rfl, rfl, rfl, ?_⟩
        unfold countDecision
        simp [List.countP_append, isDecisionCall]
      | some fs =>
        dsimp only
        have hfs : ¬(fs = .PENDING) := by
          intro hcontra
          subst hcontra
          exact hnp hget
        rw [if_neg hfs]
        refine ⟨rfl, rfl, rfl, ?_⟩
        unfold countDecision
        simp [List.countP_append, isDecisionCall]

theorem notifyItems_noop :
    ∀ (items : List FlipSyncAbsenceRequest) (ns : NotifState),
      (∀ item ∈ items, (item.status = .APPROVED ∨ item.status = .REJECTED) →
        mapGet ns.store item.external_id ≠ some .PENDING) →
      (notifyItems items ns).store = ns.store
      ∧ (notifyItems items ns).notifApproved = ns.notifApproved
      ∧ (notifyItems items ns).notifRejected = ns.notifRejected
      ∧ countDecision (notifyItems items ns).trace = countDecision ns.trace := by
  intro items
  induction items with
  | nil => intro ns _; exact ⟨rfl, rfl, rfl, rfl⟩
  | cons item rest ih =>
    intro ns h
    obtain ⟨hs, ha, hr, hd⟩ := notifyStep_noop item ns
      (h item (List.mem_cons_self item rest))
    have hrest := ih (notifyStep item ns) (by
      intro it2 h2 hdec
      rw [hs]
      exact h it2 (List.mem_cons_of_mem item h2) hdec)
    show (notifyItems rest (notifyStep item ns)).store = ns.store ∧ _
    exact ⟨hrest.1.trans hs, (hrest.2.1).trans ha, (hrest.2.2.1).trans hr,
      (hrest.2.2.2).trans hd⟩

theorem storeMono_refl (S : FlipStore) : StoreMono S S :=
  fun _ => Or.inl rfl

theorem storeMono_trans (S S' S'' : FlipStore)
    (h1 : StoreMono S S') (h2 : StoreMono S' S'') : StoreMono S S'' := by
  intro k
  rcases h2 k with h2k | ⟨h2p, h2d⟩
  · rcases h1 k with h1k | ⟨h1p, h1d⟩
    · exact Or.inl (h2k.trans h1k)
    · exact Or.inr ⟨h1p, by rw [h2k]; exact h1d⟩
  · rcases h1 k with h1k | ⟨h1p, h1d⟩
    · exact Or.inr ⟨h1k ▸ h2p, h2d⟩
    · rcases h1d with h | h <;> rw [h] at h2p <;> exact absurd (by injection h2p) (by simp)

theorem storeMono_nonPending (S S' : FlipStore) (k : String)
    (h : mapGet S k ≠ some .PENDING) (hm : StoreMono S S') :
    mapGet S' k ≠ some .PENDING := by
  rcases hm k with heq | ⟨hp, _⟩
  · rw [heq]; exact h
  · exact absurd hp h

theorem storeMono_approve (S : FlipStore) (e : String)
    (h : mapGet S e = some .PENDING) : StoreMono S (flipApprove S e) := by
  intro k
  unfold flipApprove
  rw [mapGet_mapSet]
  by_cases hek : (e == k) = true
  · have : e = k := by simpa using hek
    subst this
    exact Or.inr ⟨h, by rw [if_pos hek]; exact Or.inl rfl⟩
  · rw [if_neg hek]
    exact Or.inl rfl

theorem storeMono_reject (S : FlipStore) (e : String)
    (h : mapGet S e = some .PENDING) : StoreMono S (flipReject S e) := by
  intro k
  unfold flipReject
  rw [mapGet_mapSet]
  by_cases hek : (e == k) = true
  · have : e = k := by simpa using hek
    subst this
    exact Or.inr ⟨h, by rw [if_pos hek]; exact Or.inr rfl⟩
  · rw [if_neg hek]
    exact Or.inl rfl

theorem checkStep_store_shape (users : String → Option FlipUser) (uid : String)
    (lr : BreatheLeaveRequest) (cs : CheckState) :
    (checkStep users uid lr cs).store = cs.store
    ∨ ∃ e, mapGet cs.store e = some .PENDING
      ∧ ((checkStep users uid lr cs).store = flipApprove cs.store e
        ∨ (checkStep users uid lr cs).store = flipReject cs.store e) := by
  unfold checkStep
  dsimp only
  by_cases ha : (lrActionLower lr != "request") = true
  · rw [if_pos ha]; exact Or.inl rfl
  · rw [if_neg ha]
    by_cases hd : (!(lrStatusLower lr == "approved")
        && !(isDecidedRejected (lrStatusLower lr))) = true
    · rw [if_pos hd]; exact Or.inl rfl
    · rw [if_neg hd]
      cases hget : mapGet cs.store (Nat.repr lr.id) with
      | none => exact Or.inl rfl
      | some fs =>
        dsimp only
        by_cases hfs : fs = .PENDING
        · rw [if_pos hfs]
          subst hfs
          by_cases hap : (lrStatusLower lr == "approved") = true
          · rw [if_pos hap]
            exact Or.inr ⟨Nat.repr lr.id, hget, Or.inl rfl⟩
          · rw [if_neg hap]
            exact Or.inr ⟨Nat.repr lr.id, hget, Or.inr rfl⟩
        · rw [if_neg hfs]
          exact Or.inl rfl

theorem checkStep_mono (users : String → Option FlipUser) (uid : String)
    (lr : BreatheLeaveRequest) (cs : CheckState) :
    StoreMono cs.store (checkStep users uid lr cs).store := by
  rcases checkStep_store_shape users uid lr cs with h | ⟨e, hp, h | h⟩
  · rw [h]; exact storeMono_refl _
  · rw [h]; exact storeMono_approve _ e hp
  · rw [h]; exact storeMono_reject _ e hp

theorem checkStep_settles (users : String → Option FlipUser) (uid : String)
    (lr : BreatheLeaveRequest) (cs : CheckState) (hq : Qualifying lr) :
    mapGet (checkStep users uid lr cs).store (Nat.repr lr.id) ≠ some .PENDING := by
  obtain ⟨hact, hdec⟩ := hq
  unfold checkStep
  dsimp only
  rw [if_neg (by rw [hact]; simp)]
  have hdecB : (!(lrStatusLower lr == "approved")
      && !(isDecidedRejected (lrStatusLower lr))) = false := by
    rcases hdec with h | h
    · rw [h]; simp
    · rw [h]; simp
  rw [if_neg (by rw [hdecB]; simp)]
  cases hget : mapGet cs.store (Nat.repr lr.id) with
  | none =>
    rw [hget]
    simp
  | some fs =>
    dsimp only
    by_cases hfs : fs = .PENDING
    · rw [if_pos hfs]
      by_cases hap : (lrStatusLower lr == "approved") = true
      · rw [if_pos hap]
        dsimp only
        unfold flipApprove
        rw [mapGet_mapSet, if_pos (by simp)]
        simp
      · rw [if_neg hap]
        dsimp only
        unfold flipReject
        rw [mapGet_mapSet, if_pos (by simp)]
        simp
    · rw [if_neg hfs]
      dsimp only
      rw [hget]
      intro hcontra
      exact hfs (by injection hcontra)

theorem checkStep_noop (users : String → Option FlipUser) (uid : String)
    (lr : BreatheLeaveRequest) (cs : CheckState)
    (h : Qualifying lr → mapGet cs.store (Nat.repr lr.id) ≠ some .PENDING) :
    (checkStep users uid lr cs).store = cs.store
    ∧ (checkStep users uid lr cs).approved = cs.approved
    ∧ (checkStep users uid lr cs).rejected = cs.rejected := by
  unfold checkStep
  dsimp only
  by_cases ha : (lrActionLower lr != "request") = true
  · rw [if_pos ha]; exact ⟨rfl, rfl, rfl⟩
  · rw [if_neg ha]
    by_cases hd : (!(lrStatusLower lr == "approved")
        && !(isDecidedRejected (lrStatusLower lr))) = true
    · rw [if_pos hd]; exact ⟨rfl, rfl, rfl⟩
    · rw [if_neg hd]
      have hq : Qualifying lr := by
        constructor
        · have : (lrActionLower lr != "request") = false := by
            cases hb : (lrActionLower lr != "request")
            · rfl
            · exact absurd hb ha
          simpa using this
        · have : ¬((!(lrStatusLower lr == "approved"))
              && !(isDecidedRejected (lrStatusLower lr))) = true := hd
          rcases Bool.and_eq_false_iff.mp (by
            cases hb : ((!(lrStatusLower lr == "approved"))
              && !(isDecidedRejected (lrStatusLower lr)))
            · rfl
            · exact absurd hb hd) with h1 | h1
          · exact Or.inl (by simpa using h1)
          · exact Or.inr (by simpa using h1)
      have hnp := h hq
      cases hget : mapGet cs.store (Nat.repr lr.id) with
      | none => exact ⟨rfl, rfl, rfl⟩
      | some fs =>
        dsimp only
        have hfs : ¬(fs = .PENDING) := by
          intro hcontra
          subst hcontra
          exact hnp hget
        rw [if_neg hfs]
        exact ⟨rfl, rfl, rfl⟩

theorem checkLeaveRequests_mono (users : String → Option FlipUser) (uid : String) :
    ∀ (lrs : List BreatheLeaveRequest) (cs : CheckState),
      StoreMono cs.store (checkLeaveRequests users uid lrs cs).store := by
  intro lrs
  induction lrs with
  | nil => intro cs; exact storeMono_refl _
  | cons lr rest ih =>
    intro cs
    exact storeMono_trans _ _ _ (checkStep_mono users uid lr cs)
      (ih (checkStep users uid lr cs))

theorem checkLeaveRequests_settles (users : String → Option FlipUser) (uid : String) :
    ∀ (lrs : List BreatheLeaveRequest) (cs : CheckState) (lr : BreatheLeaveRequest),
      lr ∈ lrs → Qualifying lr →
      mapGet (checkLeaveRequests users uid lrs cs).store (Nat.repr lr.id)
        ≠ some .PENDING := by
  intro lrs
  induction lrs with
  | nil => intro cs lr hmem; exact absurd hmem (List.not_mem_nil lr)
  | cons lr0 rest ih =>
    intro cs lr hmem hq
    rcases List.mem_cons.mp hmem with rfl | hmem
    · exact storeMono_nonPending _ _ _
        (checkStep_settles users uid lr cs hq)
        (checkLeaveRequests_mono users uid rest (checkStep users uid lr cs))
    · exact ih (checkStep users uid lr0 cs) lr hmem hq

theorem checkLeaveRequests_noop (users : String → Option FlipUser) (uid : String) :
    ∀ (lrs : List BreatheLeaveRequest) (cs : CheckState),
      (∀ lr ∈ lrs, Qualifying lr → mapGet cs.store (Nat.repr lr.id) ≠ some .PENDING) →
      (checkLeaveRequests users uid lrs cs).store = cs.store
      ∧ (checkLeaveRequests users uid lrs cs).approved = cs.approved
      ∧ (checkLeaveRequests users uid lrs cs).rejected = cs.rejected := by
  intro lrs
  induction lrs with
  | nil => intro cs _; exact ⟨rfl, rfl, rfl⟩
  | cons lr0 rest ih =>
    intro cs h
    obtain ⟨hs, ha, hr⟩ := checkStep_noop users uid lr0 cs
      (h lr0 (List.mem_cons_self lr0 rest))
    have hrest := ih (checkStep users uid lr0 cs) (by
      intro lr hm hq
      rw [hs]
      exact h lr (List.mem_cons_of_mem lr0 hm) hq)
    exact ⟨hrest.1.trans hs, hrest.2.1.trans ha, hrest.2.2.trans hr⟩

theorem checkMappings_mono (upstream : Upstream) (users : String → Option FlipUser) :
    ∀ (mappings : List UserMapping) (cs : CheckState),
      StoreMono cs.store (checkMappings upstream users mappings cs).store := by
  intro mappings
  induction mappings with
  | nil => intro cs; exact storeMono_refl _
  | cons m rest ih =>
    intro cs
    unfold checkMappings
    dsimp only
    split
    · exact ih _
    · exact storeMono_trans _ _ _
        (checkLeaveRequests_mono users m.flipUserId _ cs) (ih _)

theorem checkMappings_settles (upstream : Upstream) (users : String → Option FlipUser) :
    ∀ (mappings : List UserMapping) (cs : CheckState) (m : UserMapping),
      m ∈ mappings → (upstream m.breatheEmployeeId).fetchFails = false →
      ∀ lr ∈ (upstream m.breatheEmployeeId).leaveRequests, Qualifying lr →
      mapGet (checkMappings upstream users mappings cs).store (Nat.repr lr.id)
        ≠ some .PENDING := by
  intro mappings
  induction mappings with
  | nil => intro cs m hmem; exact absurd hmem (List.not_mem_nil m)
  | cons m0 rest ih =>
    intro cs m hmem hff lr hlr hq
    rcases List.mem_cons.mp hmem with rfl | hmem
    · unfold checkMappings
      dsimp only
      rw [if_neg (by rw [hff]; simp)]
      exact storeMono_nonPending _ _ _
        (checkLeaveRequests_settles users m.flipUserId
          (upstream m.breatheEmployeeId).leaveRequests cs lr hlr hq)
        (checkMappings_mono upstream users rest _)
    · unfold checkMappings
      dsimp only
      split
      · exact ih _ m hmem hff lr hlr hq
      · exact ih _ m hmem hff lr hlr hq

theorem checkMappings_noop (upstream : Upstream) (users : String → Option FlipUser) :
    ∀ (mappings : List UserMapping) (cs : CheckState),
      (∀ m ∈ mappings, (upstream m.breatheEmployeeId).fetchFails = false →
        ∀ lr ∈ (upstream m.breatheEmployeeId).leaveRequests, Qualifying lr →
        mapGet cs.store (Nat.repr lr.id) ≠ some .PENDING) →
      (checkMappings upstream users mappings cs).store = cs.store
      ∧ (checkMappings upstream users mappings cs).approved = cs.approved
      ∧ (checkMappings upstream users mappings cs).rejected = cs.rejected := by
  intro mappings
  induction mappings with
  | nil => intro cs _; exact ⟨rfl, rfl, rfl⟩
  | cons m0 rest ih =>
    intro cs h
    unfold checkMappings
    dsimp only
    by_cases hff : (upstream m0.breatheEmployeeId).fetchFails = true
    · rw [if_pos hff]
      exact ih { cs with errors := cs.errors + 1 } (fun m hm hf lr hlr hq =>
        h m (List.mem_cons_of_mem m0 hm) hf lr hlr hq)
    · rw [if_neg hff]
      have hff' : (upstream m0.breatheEmployeeId).fetchFails = false := by
        cases hb : (upstream m0.breatheEmployeeId).fetchFails
        · rfl
        · exact absurd hb hff
      obtain ⟨hs, ha, hr⟩ := checkLeaveRequests_noop users m0.flipUserId
        (upstream m0.breatheEmployeeId).leaveRequests cs
        (fun lr hlr hq => h m0 (List.mem_cons_self m0 rest) hff' lr hlr hq)
      have hrest := ih (checkLeaveRequests users m0.flipUserId
          (upstream m0.breatheEmployeeId).leaveRequests cs) (by
        intro m hm hf lr hlr hq
        rw [hs]
        exact h m (List.mem_cons_of_mem m0 hm) hf lr hlr hq)
      exact ⟨hrest.1.trans hs, hrest.2.1.trans ha, hrest.2.2.trans hr⟩

/-- Claim C4: both sync entry points are idempotent. Running the full sync a
second time against the downstream state left by a first failure-free run
issues zero approve/reject calls and leaves the downstream store unchanged;
running the approval check a second time against the store left by a first
check likewise issues zero approve/reject calls and leaves it unchanged. -/
theorem claim_C4_idempotent (mappings : List UserMapping) (upstream : Upstream)
    (pol : List (String × String)) (store0 : FlipStore)
    (users : String → Option FlipUser) :
    ((runFullSync mappings upstream pol
        (runFullSync mappings upstream pol store0 {}).store {}).notifApproved = 0
      ∧ (runFullSync mappings upstream pol
        (runFullSync mappings upstream pol store0 {}).store {}).notifRejected = 0
      ∧ countDecision (runFullSync mappings upstream pol
        (runFullSync mappings upstream pol store0 {}).store {}).trace = 0
      ∧ (runFullSync mappings upstream pol
        (runFullSync mappings upstream pol store0 {}).store {}).store
        = (runFullSync mappings upstream pol store0 {}).store)
    ∧ ((runApprovalCheck mappings upstream users
        (runApprovalCheck mappings upstream users store0).store).approved = 0
      ∧ (runApprovalCheck mappings upstream users
        (runApprovalCheck mappings upstream users store0).store).rejected = 0
      ∧ (runApprovalCheck mappings upstream users
        (runApprovalCheck mappings upstream users store0).store).store
        = (runApprovalCheck mappings upstream users store0).store) := by
  constructor
  · have hnps : NoPendingShadow (buildSyncItems upstream pol mappings {} 0).1.syncItems :=
      buildSyncItems_inv upstream pol mappings {} 0
        (fun it hit => absurd hit (List.not_mem_nil it))
        (fun it hit => absurd hit (List.not_mem_nil it))
    have hstore1 : (runFullSync mappings upstream pol store0 {}).store
        = flipReplaceAll (buildSyncItems upstream pol mappings {} 0).1.syncItems := by
      rw [runFullSync_noFail_eq]
    obtain ⟨hnS, hnA, hnR, hnD⟩ := notifyItems_noop
      (buildSyncItems upstream pol mappings {} 0).1.syncItems
      { store := flipReplaceAll (buildSyncItems upstream pol mappings {} 0).1.syncItems,
        trace := [], notifApproved := 0, notifRejected := 0 }
      (by
        intro item hm hdec
        show mapGet (flipReplaceAll _) item.external_id ≠ some .PENDING
        rw [replaceAll_get]
        exact hnps item hm hdec)
    rw [hstore1, runFullSync_noFail_eq]
    refine ⟨hnA, hnR, ?_, rfl⟩
    dsimp only
    unfold countDecision at hnD ⊢
    simp only [List.countP_append, hnD, List.countP_nil, List.countP_map]
    simp [isDecisionCall, Function.comp, List.countP_eq_zero]
  · have hsettles : ∀ m ∈ mappings, (upstream m.breatheEmployeeId).fetchFails = false →
        ∀ lr ∈ (upstream m.breatheEmployeeId).leaveRequests, Qualifying lr →
        mapGet (runApprovalCheck mappings upstream users store0).store (Nat.repr lr.id)
          ≠ some .PENDING := by
      intro m hm hff lr hlr hq
      exact checkMappings_settles upstream users mappings _ m hm hff lr hlr hq
    obtain ⟨hS, hA, hR⟩ := checkMappings_noop upstream users mappings
      { store := (runApprovalCheck mappings upstream users store0).store, cache := [],
        trace := [], approved := 0, rejected := 0, checked := 0, skipped := 0, errors := 0 }
      (by
        intro m hm hff lr hlr hq
        exact hsettles m hm hff lr hlr hq)
    exact ⟨hA, hR, hS⟩
